import Mathlib

/-!
Shallow embedding of the checkout / inventory-reservation subsystem of the
merchant repository (src/routes/checkout.ts, src/routes/orders.ts,
src/routes/webhooks.ts, the cron sweep) together with proofs about the
frozen specification claims.

Conventions of the embedding:
* SQL integers are `Int` (they may go negative, exactly as in the store).
* Timestamps (ISO strings in the source, compared lexicographically) are
  `Int`; lexicographic order on well-formed ISO strings is order-isomorphic
  to the time line, so `<`, `≤` translate directly.
* A SQL table keyed by `sku` is a function `Nat → Option InvRec`; an
  `UPDATE ... WHERE sku = ?` is a pointwise update, and the number of
  affected rows is returned where the source consults `result.changes`.
* The `updated_at` bookkeeping columns are not modelled: no claim and no
  control path reads them.
-/

namespace Merchant

/-- One row of the `inventory` table: per-(store, sku) counters.
(Single store throughout; the store id is a fixed ambient constant in every
route, so it is dropped from the key.) -/
structure InvRec where
  on_hand : Int
  reserved : Int
deriving Repr, DecidableEq

/-- Derived availability, `on_hand - reserved` (spec §3, never stored). -/
def InvRec.available (r : InvRec) : Int := r.on_hand - r.reserved

/-- The conditional reserve on one record, from checkout.ts:257-261:
`UPDATE inventory SET reserved = reserved + ? WHERE ... AND on_hand - reserved >= ?`.
Returns the new record and the number of rows the update affected. -/
def reserveUpd (r : InvRec) (qty : Int) : InvRec × Nat :=
  if r.on_hand - r.reserved ≥ qty then ({ r with reserved := r.reserved + qty }, 1)
  else (r, 0)

/-- The floored release on one record, from checkout.ts:248 and the cron
sweep: `UPDATE inventory SET reserved = MAX(reserved - ?, 0) WHERE ...`. -/
def releaseUpd (r : InvRec) (qty : Int) : InvRec :=
  { r with reserved := max (r.reserved - qty) 0 }

/-- The unconditional sale on one record, from webhooks.ts:152-154:
`UPDATE inventory SET reserved = reserved - ?, on_hand = on_hand - ? WHERE ...`. -/
def saleUpd (r : InvRec) (qty : Int) : InvRec :=
  { on_hand := r.on_hand - qty, reserved := r.reserved - qty }

/-- The test-order debit on one record, from orders.ts:199-202:
`UPDATE inventory SET on_hand = on_hand - ? WHERE ...` (reserved untouched). -/
def debitUpd (r : InvRec) (qty : Int) : InvRec :=
  { r with on_hand := r.on_hand - qty }

/-- The inventory table: sku → row. -/
abbrev Inventory := Nat → Option InvRec

/-- Conditional reserve against the table; a missing row means the
`UPDATE` matches nothing and `changes = 0`. -/
def reserveRow (inv : Inventory) (sku : Nat) (qty : Int) : Inventory × Nat :=
  match inv sku with
  | none => (inv, 0)
  | some r =>
    if r.on_hand - r.reserved ≥ qty then
      ((fun k => if k = sku then some { r with reserved := r.reserved + qty } else inv k), 1)
    else (inv, 0)

/-- Floored release against the table (no-op on a missing row). -/
def releaseRow (inv : Inventory) (sku : Nat) (qty : Int) : Inventory :=
  fun k => if k = sku then (inv k).map (fun r => releaseUpd r qty) else inv k

/-- Unconditional sale against the table (no-op on a missing row). -/
def saleRow (inv : Inventory) (sku : Nat) (qty : Int) : Inventory :=
  fun k => if k = sku then (inv k).map (fun r => saleUpd r qty) else inv k

/-- Unconditional on-hand debit against the table (no-op on a missing row). -/
def debitRow (inv : Inventory) (sku : Nat) (qty : Int) : Inventory :=
  fun k => if k = sku then (inv k).map (fun r => debitUpd r qty) else inv k

/-- The invariant of spec §3: `0 <= reserved <= on_hand`. -/
def invOK (r : InvRec) : Prop := 0 ≤ r.reserved ∧ r.reserved ≤ r.on_hand

instance (r : InvRec) : Decidable (invOK r) := by unfold invOK; infer_instance

/-! ### Single-SKU mutation traces (claim C1)

The three mutations any subsystem operation performs on one inventory row,
as a small operation language, so statements can quantify over sequences of
calls against one SKU. -/

/-- One mutation of a single inventory row, as performed by the routes:
`reserve` is checkout's conditional update, `release` is the floored
rollback / sweep update, `sale` is the webhook's unconditional double
decrement. -/
inductive InvOp
  | reserve (qty : Int)
  | release (qty : Int)
  | sale (qty : Int)
deriving Repr, DecidableEq

/-- Apply one mutation to the row. -/
def applyOp (r : InvRec) : InvOp → InvRec
  | .reserve q => (reserveUpd r q).1
  | .release q => releaseUpd r q
  | .sale q => saleUpd r q

/-- Apply a sequence of mutations. -/
def applyOps (r : InvRec) (ops : List InvOp) : InvRec := ops.foldl applyOp r

/-- The quantity an operation carries (route handlers validate `qty >= 1`
before any of these updates run). -/
def opQty : InvOp → Int
  | .reserve q => q
  | .release q => q
  | .sale q => q

/-- A trace is sale-safe when every sale, at the moment it runs, sells no
more than is currently reserved (true of the protocol when each cart is
fulfilled by at most one webhook event). -/
def saleSafe (r : InvRec) : List InvOp → Bool
  | [] => true
  | op :: rest =>
    (match op with
     | .sale q => decide (q ≤ r.reserved)
     | _ => true) && saleSafe (applyOp r op) rest

/-- Total quantity successfully reserved over a sequence of reserve calls
(a call counts exactly when its conditional update affected a row). -/
def reservedSum (r : InvRec) : List Int → Int
  | [] => 0
  | q :: rest =>
    let p := reserveUpd r q
    (if p.2 = 0 then 0 else q) + reservedSum p.1 rest

lemma invOK_applyOp_reserve {r : InvRec} {q : Int} (h : invOK r) (hq : 1 ≤ q) :
    invOK (applyOp r (.reserve q)) := by
  obtain ⟨h0, h1⟩ := h
  simp only [applyOp, reserveUpd]
  split <;> constructor <;> simp_all <;> omega

lemma invOK_applyOp_release {r : InvRec} {q : Int} (h : invOK r) (hq : 0 ≤ q) :
    invOK (applyOp r (.release q)) := by
  obtain ⟨h0, h1⟩ := h
  simp only [applyOp, releaseUpd, invOK]
  constructor <;> simp <;> omega

lemma invOK_applyOp_sale {r : InvRec} {q : Int} (h : invOK r) (hs : q ≤ r.reserved)
    (hq : 0 ≤ q) : invOK (applyOp r (.sale q)) := by
  obtain ⟨h0, h1⟩ := h
  simp only [applyOp, saleUpd, invOK]
  constructor <;> simp <;> omega

/-- Invariant preservation along any sale-safe trace of route mutations. -/
lemma invOK_applyOps (ops : List InvOp) : ∀ (r : InvRec), invOK r →
    (∀ op ∈ ops, 1 ≤ opQty op) → saleSafe r ops = true → invOK (applyOps r ops) := by
  induction ops with
  | nil => intro r h _ _; exact h
  | cons op rest ih =>
    intro r h hq hs
    simp only [saleSafe, Bool.and_eq_true] at hs
    have hstep : invOK (applyOp r op) := by
      cases op with
      | reserve q =>
        have hq1 : 1 ≤ q := by simpa [opQty] using hq (.reserve q) (by simp)
        exact invOK_applyOp_reserve h hq1
      | release q =>
        have hq1 : 1 ≤ q := by simpa [opQty] using hq (.release q) (by simp)
        exact invOK_applyOp_release h (by omega)
      | sale q =>
        have hq1 : 1 ≤ q := by simpa [opQty] using hq (.sale q) (by simp)
        refine invOK_applyOp_sale h ?_ (by omega)
        have := hs.1; simpa using this
    have : applyOps r (op :: rest) = applyOps (applyOp r op) rest := by
      simp [applyOps]
    rw [this]
    exact ih _ hstep (fun o ho => hq o (by simp [ho])) hs.2

/-- The sum of successfully reserved quantities is bounded by the initial
availability. -/
lemma reservedSum_le (qs : List Int) : ∀ (r : InvRec), invOK r →
    (∀ q ∈ qs, 1 ≤ q) → reservedSum r qs ≤ r.on_hand - r.reserved := by
  induction qs with
  | nil =>
    intro r h _
    obtain ⟨h0, h1⟩ := h
    simp [reservedSum]
    omega
  | cons q rest ih =>
    intro r h hq
    simp only [reservedSum]
    by_cases hc : r.on_hand - r.reserved ≥ q
    · have hres : reserveUpd r q = ({ r with reserved := r.reserved + q }, 1) := by
        simp [reserveUpd, hc]
      rw [hres]
      have h' : invOK { r with reserved := r.reserved + q } := by
        obtain ⟨h0, h1⟩ := h
        have := hq q (by simp)
        constructor <;> simp <;> omega
      have := ih _ h' (fun x hx => hq x (by simp [hx]))
      simp only at this ⊢
      omega
    · have hres : reserveUpd r q = (r, 0) := by
        unfold reserveUpd
        rw [if_neg hc]
      rw [hres]
      have := ih r h (fun x hx => hq x (by simp [hx]))
      simpa using this

/-! ### Data model: carts, discounts, orders, events, logs (spec §3) -/

/-- Cart status, `status ∈ {open, checked_out, expired}` (the `open` literal
is spelled `opened` because `open` is a Lean keyword). -/
inductive CartStatus
  | opened
  | checked_out
  | expired
deriving Repr, DecidableEq

/-- One `cart_items` row (title and price snapshots are not consulted by
any claim and are omitted). -/
structure CartItem where
  sku : Nat
  qty : Int
deriving Repr, DecidableEq

/-- One `carts` row. -/
structure Cart where
  status : CartStatus
  items : List CartItem
  expires_at : Int
  customer_email : String
  discount_code : Option String
  discount_id : Option Nat
  discount_amount_cents : Int
  stripe_session : Option Nat
deriving Repr, DecidableEq

/-- One `discounts` row (the fields the webhook and routes read). -/
structure DiscountRec where
  code : String
  status : String
  starts_at : Option Int
  expires_at : Option Int
  usage_limit : Option Int
  usage_count : Int
deriving Repr, DecidableEq

/-- One `variants` row (the fields the item-replacement validation reads). -/
structure Variant where
  active : Bool
deriving Repr, DecidableEq

/-- One `inventory_logs` row. -/
structure LogEntry where
  sku : Nat
  delta : Int
  reason : String
deriving Repr, DecidableEq

/-- One `discount_usage` row. -/
structure UsageRow where
  discount_id : Nat
  customer_email : String
  amount_cents : Int
deriving Repr, DecidableEq

/-- One `orders` row together with its `order_items` (the fields the
claims consult). -/
structure OrderRec where
  cart_id : Option Nat
  items : List CartItem
  discount_id : Option Nat
  discount_amount_cents : Int
deriving Repr, DecidableEq

/-- The persistent store, restricted to one store tenant. -/
structure Sys where
  inventory : Inventory
  carts : List (Nat × Cart)
  discounts : List (Nat × DiscountRec)
  variants : List (Nat × Variant)
  events : List Nat
  orders : List OrderRec
  usage : List UsageRow
  logs : List LogEntry

/-- `SELECT * FROM carts WHERE id = ?`. -/
def lookupCart (s : Sys) (cid : Nat) : Option Cart :=
  (s.carts.find? (fun p => p.1 == cid)).map (fun p => p.2)

/-- `SELECT * FROM discounts WHERE id = ?`. -/
def lookupDiscount (s : Sys) (did : Nat) : Option DiscountRec :=
  (s.discounts.find? (fun p => p.1 == did)).map (fun p => p.2)

/-- `SELECT * FROM variants WHERE sku = ?`. -/
def lookupVariant (s : Sys) (sku : Nat) : Option Variant :=
  (s.variants.find? (fun p => p.1 == sku)).map (fun p => p.2)

/-- `UPDATE carts SET ... WHERE id = ?`. -/
def setCart (carts : List (Nat × Cart)) (cid : Nat) (f : Cart → Cart) :
    List (Nat × Cart) :=
  carts.map (fun p => if p.1 == cid then (p.1, f p.2) else p)

/-- `UPDATE discounts SET ... WHERE id = ?`. -/
def setDiscount (ds : List (Nat × DiscountRec)) (did : Nat)
    (f : DiscountRec → DiscountRec) : List (Nat × DiscountRec) :=
  ds.map (fun p => if p.1 == did then (p.1, f p.2) else p)

/-- Availability as the routes read it, orders.ts:136 / checkout.ts:96:
`(inv?.on_hand ?? 0) - (inv?.reserved ?? 0)`. -/
def availableAt (inv : Inventory) (sku : Nat) : Int :=
  match inv sku with
  | none => 0
  | some r => r.on_hand - r.reserved

/-! ### Checkout (POST /v1/carts/:cartId/checkout, checkout.ts:182-366)

The url/secret-key guards (lines 185-197) precede any state access and are
not modelled; the server-side discount recomputation (lines 213-240) calls
`validateDiscount`, whose source file is absent, so the finalized discount
amount enters `checkoutStep` as a parameter. Neither omission touches
inventory or the cart status. -/

/-- Release every tracked reservation, `releaseReservedInventory`,
checkout.ts:245-252 (no `inventory_logs` insert appears there). -/
def releaseItems (inv : Inventory) (its : List CartItem) : Inventory :=
  its.foldl (fun iv it => releaseRow iv it.sku it.qty) inv

/-- The reservation loop, checkout.ts:254-271: reserve each item by a
conditional update; on the first `changes = 0` release everything in the
accumulator and report the failing sku.  Returns the resulting inventory,
the failing sku if any, and the reserved-items accumulator. -/
def reserveLoop (inv : Inventory) (acc : List CartItem) :
    List CartItem → Inventory × Option Nat × List CartItem
  | [] => (inv, none, acc)
  | it :: rest =>
    let p := reserveRow inv it.sku it.qty
    if p.2 = 0 then (releaseItems inv acc, some it.sku, acc)
    else reserveLoop p.1 (acc ++ [it]) rest

/-- Result of a checkout call (`ApiError` taxonomy of spec §7). -/
inductive CheckoutRes
  | ok
  | notFound
  | notOpen
  | emptyCart
  | insufficient (sku : Nat)
  | processorFail
deriving Repr, DecidableEq

/-- The checkout route body.  `processorOk` stands for the Stripe coupon
and session creation both succeeding (checkout.ts:293-354; either failure
runs `releaseReservedInventory` and aborts); `sess` is the session id and
`amt` the recomputed discount amount stored on success (lines 356-360). -/
def checkoutStep (s : Sys) (cid : Nat) (processorOk : Bool) (sess : Nat)
    (amt : Int) : Sys × CheckoutRes :=
  match lookupCart s cid with
  | none => (s, .notFound)
  | some cart =>
    if cart.status ≠ .opened then (s, .notOpen)
    else if cart.items = [] then (s, .emptyCart)
    else
      match reserveLoop s.inventory [] cart.items with
      | (inv2, some k, _) => ({ s with inventory := inv2 }, .insufficient k)
      | (inv2, none, reservedItems) =>
        if processorOk then
          ({ s with inventory := inv2,
                    carts := setCart s.carts cid (fun c =>
                      { c with status := .checked_out,
                               stripe_session := some sess,
                               discount_amount_cents := amt }) }, .ok)
        else
          ({ s with inventory := releaseItems inv2 reservedItems }, .processorFail)

/-! ### Webhook (POST /v1/webhooks/stripe, webhooks.ts:14-202)

Store resolution and signature verification (lines 27-45) precede any
mutation and reject without touching the tables; the step starts at the
dedup check (line 48). -/

/-- Discount validity re-check at webhook time, webhooks.ts:83-86. -/
def discountValidNow (d : DiscountRec) (t : Int) : Bool :=
  d.status == "active" &&
  (match d.starts_at with
   | none => true
   | some a => decide (t ≥ a)) &&
  (match d.expires_at with
   | none => true
   | some b => decide (t ≤ b))

/-- The conditional usage increment, webhooks.ts:94-102:
`UPDATE discounts SET usage_count = usage_count + 1 WHERE id = ? AND
(usage_limit IS NULL OR usage_count < usage_limit)`. -/
def usageIncrUpd (d : DiscountRec) : DiscountRec :=
  if (match d.usage_limit with
      | none => true
      | some l => decide (d.usage_count < l)) then
    { d with usage_count := d.usage_count + 1 }
  else d

/-- The webhook's discount phase, webhooks.ts:61-104: resolve the metadata
discount id, read the charged amount off the cart, re-validate for usage
tracking, and run the conditional increment.  Returns
(discount id for the order, amount for the order, shouldTrackUsage) and the
updated discounts table. -/
def webhookDiscountPhase (ds : List (Nat × DiscountRec)) (meta : Option Nat)
    (cartAmount : Int) (t : Int) :
    (Option Nat × Int × Bool) × List (Nat × DiscountRec) :=
  match meta with
  | none => ((none, 0, false), ds)
  | some did =>
    match (ds.find? (fun p => p.1 == did)).map (fun p => p.2) with
    | none => ((none, 0, false), ds)
    | some d =>
      let track := discountValidNow d t && decide (cartAmount > 0)
      ((some did, cartAmount, track),
       if track then ds.map (fun p => if p.1 == did then (p.1, usageIncrUpd p.2) else p)
       else ds)

/-- Sell every cart item, webhooks.ts:146-155 (unconditional double
decrement per item). -/
def sellItems (inv : Inventory) (its : List CartItem) : Inventory :=
  its.foldl (fun iv it => saleRow iv it.sku it.qty) inv

/-- The per-item sale log rows, webhooks.ts:157-160. -/
def saleLogs (its : List CartItem) : List LogEntry :=
  its.map (fun it => { sku := it.sku, delta := -it.qty, reason := "sale" })

/-- The webhook route body.  `e` is the processor event id, `completed`
states whether `event.type === 'checkout.session.completed'`, `cartMeta`
and `discountMeta` are the session metadata ids, `t` is `now()`. -/
def webhookStep (s : Sys) (e : Nat) (completed : Bool) (cartMeta : Option Nat)
    (discountMeta : Option Nat) (t : Int) : Sys :=
  if e ∈ s.events then s
  else
    let s2 :=
      if completed then
        match cartMeta with
        | none => s
        | some cid =>
          match lookupCart s cid with
          | none => s
          | some cart =>
            let phase := webhookDiscountPhase s.discounts discountMeta
              cart.discount_amount_cents t
            let odid := phase.1.1
            let amount := phase.1.2.1
            let track := phase.1.2.2
            { s with
              discounts := phase.2,
              orders := s.orders ++
                [{ cart_id := some cid, items := cart.items,
                   discount_id := odid, discount_amount_cents := amount }],
              usage :=
                if track && odid.isSome then
                  s.usage ++ [{ discount_id := odid.getD 0,
                                customer_email := cart.customer_email.toLower,
                                amount_cents := amount }]
                else s.usage,
              inventory := sellItems s.inventory cart.items,
              logs := s.logs ++ saleLogs cart.items }
      else s
    { s2 with events := s2.events ++ [e] }

/-! ### Expiry sweep (handleCron, cron source lines 13-39) -/

/-- The sweep's selection predicate, `status = 'open' AND expires_at < ?`. -/
def cartExpiredNow (c : Cart) (t : Int) : Bool :=
  decide (c.status = .opened) && decide (c.expires_at < t)

/-- The per-item release log rows the sweep inserts (cron lines 29-32). -/
def releaseLogs (its : List CartItem) : List LogEntry :=
  its.map (fun it => { sku := it.sku, delta := -it.qty, reason := "release" })

/-- The items of every cart the sweep selects, in processing order. -/
def sweptItems (s : Sys) (t : Int) : List CartItem :=
  ((s.carts.filter (fun p => cartExpiredNow p.2 t)).map (fun p => p.2.items)).flatten

/-- The sweep: for each open cart past expiry, release every item (with a
"release" log row), then mark the cart expired.  Status updates touch no
inventory, so batching them after the releases is behavior-equal to the
source's per-cart interleaving. -/
def sweepStep (s : Sys) (t : Int) : Sys :=
  { s with
    inventory := releaseItems s.inventory (sweptItems s t),
    logs := s.logs ++ releaseLogs (sweptItems s t),
    carts := s.carts.map (fun p =>
      if cartExpiredNow p.2 t then (p.1, { p.2 with status := .expired }) else p) }

/-! ### Test order (POST /v1/orders/test, orders.ts:104-226)

Restricted to requests without a `discount_code` (the discount branch calls
the absent `validateDiscount` and touches neither inventory nor logs). -/

/-- Result of a test-order call. -/
inductive TestOrderRes
  | ok
  | insufficient (sku : Nat)
deriving Repr, DecidableEq

/-- The test-order route body: a validation pass of plain reads against the
pre-state (orders.ts:120-146), then per item an unconditional
`on_hand = on_hand - qty` update (orders.ts:192-203) with no
`inventory_logs` insert anywhere on the path. -/
def testOrderStep (s : Sys) (items : List CartItem) : Sys × TestOrderRes :=
  match items.find? (fun it => decide (availableAt s.inventory it.sku < it.qty)) with
  | some it => (s, .insufficient it.sku)
  | none =>
    ({ s with
       orders := s.orders ++ [{ cart_id := none, items := items,
                                discount_id := none, discount_amount_cents := 0 }],
       inventory := items.foldl (fun iv it => debitRow iv it.sku it.qty) s.inventory },
     .ok)

/-! ### Cart-mutating routes and their status gate (claim C9)

Replace-items (checkout.ts:58-179), apply-discount (checkout.ts:369-431)
and remove-discount (checkout.ts:434-468) all gate on
`if (!cart) notFound; if (cart.status !== 'open') conflict` and never read
`expires_at`.  The discount engine (`validateDiscount` / the amount
computation) lives in the absent discounts source file; it reads the
discount row, the cart items, and the customer email — never the cart's
expiry — so it enters these steps as an explicit function parameter. -/

/-- Result of the replace-items call. -/
inductive ReplaceRes
  | ok
  | notFound
  | notOpen
  | badItem
  | skuNotFound (sku : Nat)
  | skuInactive (sku : Nat)
  | insufficient (sku : Nat)
deriving Repr, DecidableEq

/-- Batch validation of the requested items, checkout.ts:78-105: each needs
`qty >= 1`, an active variant, and `available >= qty`; the first violation
aborts before anything is mutated. -/
def firstItemError (s : Sys) : List CartItem → Option ReplaceRes
  | [] => none
  | it :: rest =>
    if it.qty < 1 then some .badItem
    else
      match lookupVariant s it.sku with
      | none => some (.skuNotFound it.sku)
      | some v =>
        if !v.active then some (.skuInactive it.sku)
        else if availableAt s.inventory it.sku < it.qty then
          some (.insufficient it.sku)
        else firstItemError s rest

/-- The replace-items route body: gate, batch-validate, replace the item
set, then recompute the attached discount — `recompute` abstracts the
engine call (checkout.ts:121-156): `none` means the discount is silently
detached, `some amt` re-stores the recomputed amount. -/
def replaceItemsStep (s : Sys) (cid : Nat) (newItems : List CartItem)
    (recompute : Option Nat → List CartItem → String → Option Int) :
    Sys × ReplaceRes :=
  if newItems = [] then (s, .badItem)
  else
    match lookupCart s cid with
    | none => (s, .notFound)
    | some cart =>
      if cart.status ≠ .opened then (s, .notOpen)
      else
        match firstItemError s newItems with
        | some err => (s, err)
        | none =>
          let f : Cart → Cart := fun c =>
            match recompute c.discount_id newItems c.customer_email with
            | some amt => { c with items := newItems, discount_amount_cents := amt }
            | none => { c with items := newItems, discount_code := none,
                               discount_id := none, discount_amount_cents := 0 }
          ({ s with carts := setCart s.carts cid f }, .ok)

/-- Result of the apply-discount call. -/
inductive ApplyRes
  | ok
  | notFound
  | notOpen
  | codeNotFound
  | emptyCart
  | ineligible
deriving Repr, DecidableEq

/-- The apply-discount route body, checkout.ts:369-431: gate, case- and
whitespace-normalized code lookup, empty-cart guard, then validation
(`vf`, surfacing failure) and amount computation (`camt`); on success the
canonical code/id from the row are stored. -/
def applyDiscountStep (s : Sys) (cid : Nat) (rawCode : String)
    (vf : DiscountRec → List CartItem → String → Bool)
    (camt : DiscountRec → List CartItem → Int) : Sys × ApplyRes :=
  match lookupCart s cid with
  | none => (s, .notFound)
  | some cart =>
    if cart.status ≠ .opened then (s, .notOpen)
    else
      let norm := rawCode.toUpper.trim
      match s.discounts.find? (fun p => p.2.code == norm) with
      | none => (s, .codeNotFound)
      | some (did, d) =>
        if cart.items = [] then (s, .emptyCart)
        else if vf d cart.items cart.customer_email then
          ({ s with carts := setCart s.carts cid (fun c =>
              { c with discount_code := some d.code, discount_id := some did,
                       discount_amount_cents := camt d cart.items }) }, .ok)
        else (s, .ineligible)

/-- Result of the remove-discount call. -/
inductive RemoveRes
  | ok
  | notFound
  | notOpen
deriving Repr, DecidableEq

/-- The remove-discount route body, checkout.ts:434-450: gate, then clear
the discount fields. -/
def removeDiscountStep (s : Sys) (cid : Nat) : Sys × RemoveRes :=
  match lookupCart s cid with
  | none => (s, .notFound)
  | some cart =>
    if cart.status ≠ .opened then (s, .notOpen)
    else
      ({ s with carts := setCart s.carts cid (fun c =>
          { c with discount_code := none, discount_id := none,
                   discount_amount_cents := 0 }) }, .ok)

/-- Overwrite one cart's `expires_at` (the field no route but the sweep
reads). -/
def setExpiry (s : Sys) (cid : Nat) (e : Int) : Sys :=
  { s with carts := setCart s.carts cid (fun c => { c with expires_at := e }) }

/-! ### Discount calculation (claim C7) -/

/-- The discount fields `calculateDiscount` reads (shape as in
src/tests/discounts.test.ts). -/
structure CalcDiscount where
  dtype : String
  value : Int
  max_discount_cents : Option Int
deriving Repr, DecidableEq

/-- Modelled from the spec: `calculateDiscount` lives in
src/routes/discounts.ts, which is absent from the sources (only its test
file src/tests/discounts.test.ts and its callers are present).  Spec §4.2:
percentage: `floor(subtotal * value / 100)`, then capped by
`max_discount_cents` if set; fixed-amount: `min(value, subtotal)`; zero
subtotal or zero value yields zero; all money is integer cents. -/
def calculateDiscount (d : CalcDiscount) (subtotal : Int) : Int :=
  if d.dtype == "percentage" then
    let raw := Int.fdiv (subtotal * d.value) 100
    match d.max_discount_cents with
    | none => raw
    | some m => min raw m
  else min d.value subtotal

/-! ### Claim theorems -/

/-- C1 counterexample.  A trace of subsystem operations alone drives
`reserved` negative: checkout of a one-item cart reserves 1 of sku 0, a
first fulfilling webhook event (id 10) sells it, and a second fulfilling
event with a distinct processor event id (11) for the same cart passes the
event-id dedup and sells it again — `reserved` ends at `-1 < 0`, violating
`0 <= reserved <= on_hand` after a successful webhook-sale mutation. -/
def c1sys : Sys :=
  { inventory := fun k => if k = 0 then some ⟨1, 0⟩ else none,
    carts := [(0, { status := .opened, items := [⟨0, 1⟩], expires_at := 1000,
                    customer_email := "x@example.com", discount_code := none,
                    discount_id := none, discount_amount_cents := 0,
                    stripe_session := none })],
    discounts := [], variants := [], events := [], orders := [], usage := [],
    logs := [] }

/-- C1: refuted as stated.  After the checkout and two distinct-event-id
fulfilling webhook deliveries for the same cart — each a successful
mutation of the subsystem — the sku's `reserved` is `-1`, so
`0 <= reserved` fails with webhook sales interleaved. -/
theorem C1_counterexample :
    (checkoutStep c1sys 0 true 7 0).2 = .ok ∧
    ((webhookStep (webhookStep (checkoutStep c1sys 0 true 7 0).1 10 true (some 0) none 0)
        11 true (some 0) none 0).inventory 0).map InvRec.reserved = some (-1) := by
  decide

/-- C1 (amended): for every sequence of reserve and release calls against
one SKU (each with the route-validated `qty >= 1`), `0 <= reserved <=
on_hand` is preserved and the sum of successfully reserved quantities never
exceeds `on_hand`; this remains true when webhook-driven sales are
interleaved provided each sale sells at most the currently reserved
quantity (i.e. each cart is fulfilled by at most one webhook event — the
event-id dedup alone does not enforce this, see the counterexample). -/
theorem C1_reserved_invariant :
    (∀ (r : InvRec) (ops : List InvOp), invOK r → (∀ op ∈ ops, 1 ≤ opQty op) →
        saleSafe r ops = true → invOK (applyOps r ops)) ∧
    (∀ (r : InvRec) (qs : List Int), invOK r → (∀ q ∈ qs, 1 ≤ q) →
        reservedSum r qs ≤ r.on_hand) := by
  constructor
  · intro r ops h hq hs
    exact invOK_applyOps ops r h hq hs
  · intro r qs h hq
    have := reservedSum_le qs r h hq
    obtain ⟨h0, h1⟩ := h
    omega

/-- C1 witness: the amended theorem applied to a concrete record and
concrete traces. -/
theorem C1_reserved_invariant_witness :
    invOK ⟨10, 0⟩ ∧
    (∀ op ∈ ([.reserve 3, .release 2, .sale 1] : List InvOp), 1 ≤ opQty op) ∧
    saleSafe ⟨10, 0⟩ [.reserve 3, .release 2, .sale 1] = true ∧
    invOK (applyOps ⟨10, 0⟩ [.reserve 3, .release 2, .sale 1]) ∧
    reservedSum ⟨10, 0⟩ [4, 5, 6] ≤ 10 :=
  ⟨by decide, by decide, by decide,
   C1_reserved_invariant.1 ⟨10, 0⟩ [.reserve 3, .release 2, .sale 1]
     (by decide) (by decide) (by decide),
   C1_reserved_invariant.2 ⟨10, 0⟩ [4, 5, 6] (by decide) (by decide)⟩

/-- C2: the conditional reserve succeeds iff the row exists and
`on_hand - reserved >= qty` holds at the moment of the update (a missing
row counts as failure); success is reported via the number of affected
rows; on success it sets exactly `reserved + qty` on that row and leaves
every other row unchanged; on failure the table is completely unchanged. -/
theorem C2_reserve_conditional (inv : Inventory) (sku : Nat) (qty : Int) :
    ((reserveRow inv sku qty).2 ≠ 0 ↔
        ∃ r, inv sku = some r ∧ r.on_hand - r.reserved ≥ qty) ∧
    (∀ r, inv sku = some r → r.on_hand - r.reserved ≥ qty →
        (reserveRow inv sku qty).1 sku = some { r with reserved := r.reserved + qty } ∧
        ∀ k, k ≠ sku → (reserveRow inv sku qty).1 k = inv k) ∧
    ((reserveRow inv sku qty).2 = 0 → (reserveRow inv sku qty).1 = inv) ∧
    (inv sku = none → (reserveRow inv sku qty).2 = 0) := by
  refine ⟨?_, ?_, ?_, ?_⟩
  · constructor
    · intro hne
      cases hrow : inv sku with
      | none => simp [reserveRow, hrow] at hne
      | some r =>
        by_cases hc : r.on_hand - r.reserved ≥ qty
        · exact ⟨r, rfl, hc⟩
        · simp [reserveRow, hrow, hc] at hne
    · rintro ⟨r, hrow, hc⟩
      simp [reserveRow, hrow, hc]
  · intro r hrow hc
    constructor
    · simp [reserveRow, hrow, hc]
    · intro k hk; simp [reserveRow, hrow, hc, hk]
  · intro h0
    cases hrow : inv sku with
    | none => simp [reserveRow, hrow]
    | some r =>
      by_cases hc : r.on_hand - r.reserved ≥ qty
      · simp [reserveRow, hrow, hc] at h0
      · simp [reserveRow, hrow, hc]
  · intro hrow
    simp [reserveRow, hrow]

/-- C2 witness: the conditional-reserve theorem at a concrete table. -/
theorem C2_reserve_conditional_witness :
    ((fun k => if k = 3 then some (⟨5, 1⟩ : InvRec) else none) 3 = some ⟨5, 1⟩) ∧
    ((5 : Int) - 1 ≥ 4) ∧
    (reserveRow (fun k => if k = 3 then some ⟨5, 1⟩ else none) 3 4).1 3 = some ⟨5, 5⟩ ∧
    (reserveRow (fun k => if k = 3 then some ⟨5, 1⟩ else none) 3 4).1 7 =
      (fun k => if k = 3 then some (⟨5, 1⟩ : InvRec) else none) 7 := by
  have h := (C2_reserve_conditional
    (fun k => if k = 3 then some ⟨5, 1⟩ else none) 3 4).2.1 ⟨5, 1⟩ (by decide) (by decide)
  exact ⟨by decide, by decide, h.1, h.2 7 (by decide)⟩

/-- Every webhook processing records the event id. -/
lemma webhookStep_mem_events (s : Sys) (e : Nat) (c : Bool) (m d : Option Nat)
    (t : Int) : e ∈ (webhookStep s e c m d t).events := by
  unfold webhookStep
  by_cases he : e ∈ s.events
  · simpa [he] using he
  · rw [if_neg he]
    cases c with
    | false => simp
    | true =>
      cases m with
      | none => simp
      | some cid =>
        cases hc : lookupCart s cid with
        | none => simp [hc]
        | some cart => simp [hc]

/-- The surrounding `Sys` fields of one webhook processing: events always
gain exactly the trailing `[e]` entry on a first processing. -/
lemma webhookStep_events_append (s : Sys) (e : Nat) (c : Bool) (m d : Option Nat)
    (t : Int) (he : e ∉ s.events) :
    (webhookStep s e c m d t).events = s.events ++ [e] := by
  unfold webhookStep
  rw [if_neg he]
  cases c with
  | false => simp
  | true =>
    cases m with
    | none => simp
    | some cid =>
      cases hc : lookupCart s cid with
      | none => simp [hc]
      | some cart => simp [hc]

/-- C4: webhook processing is idempotent per processor event id: a second
processing of an already-recorded event id returns success performing no
mutation at all; redelivery of the same event id (with any payload) after a
first processing is a complete no-op, so two deliveries produce exactly the
one order and order-item set of the first; each single processing creates
at most one order; and the event id is appended on every first processing,
whether or not an order was created. -/
theorem C4_webhook_idempotent :
    (∀ (s : Sys) (e : Nat) (c : Bool) (m d : Option Nat) (t : Int),
        e ∈ s.events → webhookStep s e c m d t = s) ∧
    (∀ (s : Sys) (e : Nat) (c : Bool) (m d : Option Nat) (t : Int),
        e ∉ s.events → (webhookStep s e c m d t).events = s.events ++ [e]) ∧
    (∀ (s : Sys) (e : Nat) (c1 : Bool) (m1 d1 : Option Nat) (t1 : Int)
        (c2 : Bool) (m2 d2 : Option Nat) (t2 : Int),
        webhookStep (webhookStep s e c1 m1 d1 t1) e c2 m2 d2 t2 =
          webhookStep s e c1 m1 d1 t1) ∧
    (∀ (s : Sys) (e : Nat) (c : Bool) (m d : Option Nat) (t : Int),
        (webhookStep s e c m d t).orders = s.orders ∨
        ∃ o, (webhookStep s e c m d t).orders = s.orders ++ [o]) := by
  have hdedup : ∀ (s : Sys) (e : Nat) (c : Bool) (m d : Option Nat) (t : Int),
      e ∈ s.events → webhookStep s e c m d t = s := by
    intro s e c m d t he
    unfold webhookStep
    rw [if_pos he]
  refine ⟨hdedup, webhookStep_events_append, ?_, ?_⟩
  · intro s e c1 m1 d1 t1 c2 m2 d2 t2
    exact hdedup _ _ _ _ _ _ (webhookStep_mem_events s e c1 m1 d1 t1)
  · intro s e c m d t
    unfold webhookStep
    by_cases he : e ∈ s.events
    · rw [if_pos he]; left; rfl
    · rw [if_neg he]
      cases c with
      | false => left; simp
      | true =>
        cases m with
        | none => left; simp
        | some cid =>
          cases hc : lookupCart s cid with
          | none => left; simp [hc]
          | some cart =>
            right
            refine ⟨{ cart_id := some cid, items := cart.items,
                      discount_id :=
                        (webhookDiscountPhase s.discounts d cart.discount_amount_cents t).1.1,
                      discount_amount_cents :=
                        (webhookDiscountPhase s.discounts d cart.discount_amount_cents t).1.2.1 },
              ?_⟩
            simp [hc]

/-- C4 witness: a concrete first processing appends the event id and a
concrete second delivery of the same id changes nothing. -/
theorem C4_webhook_idempotent_witness :
    (10 ∉ c1sys.events) ∧
    (webhookStep c1sys 10 true (some 0) none 0).events = c1sys.events ++ [10] ∧
    webhookStep (webhookStep c1sys 10 true (some 0) none 0) 10 true (some 0) none 0 =
      webhookStep c1sys 10 true (some 0) none 0 :=
  ⟨by decide,
   C4_webhook_idempotent.2.1 c1sys 10 true (some 0) none 0 (by decide),
   C4_webhook_idempotent.2.2.1 c1sys 10 true (some 0) none 0 true (some 0) none 0⟩

/-- C7: `calculate` over integer cents (spec-modelled, source file absent):
percentage discounts floor `subtotal * value / 100` (characterized below,
not rounded) and are capped by `max_discount_cents` when set; fixed-amount
discounts are `min(value, subtotal)` and never exceed the subtotal; zero
subtotal or zero value yields zero; and the three spec examples evaluate as
stated. -/
theorem C7_calculate_discount (d : CalcDiscount) (subtotal : Int) :
    (d.dtype = "percentage" → d.max_discount_cents = none → 0 ≤ subtotal * d.value →
        100 * calculateDiscount d subtotal ≤ subtotal * d.value ∧
        subtotal * d.value < 100 * (calculateDiscount d subtotal + 1)) ∧
    (d.dtype = "percentage" → ∀ m, d.max_discount_cents = some m →
        calculateDiscount d subtotal ≤ m ∧
        calculateDiscount d subtotal = min (Int.fdiv (subtotal * d.value) 100) m) ∧
    (d.dtype ≠ "percentage" →
        calculateDiscount d subtotal ≤ subtotal ∧
        calculateDiscount d subtotal ≤ d.value ∧
        (d.value ≤ subtotal → calculateDiscount d subtotal = d.value)) ∧
    (subtotal = 0 → 0 ≤ d.value → (∀ m, d.max_discount_cents = some m → 0 ≤ m) →
        calculateDiscount d subtotal = 0) ∧
    (d.value = 0 → 0 ≤ subtotal → (∀ m, d.max_discount_cents = some m → 0 ≤ m) →
        calculateDiscount d subtotal = 0) ∧
    calculateDiscount ⟨"percentage", 15, none⟩ 999 = 149 ∧
    calculateDiscount ⟨"fixed_amount", 5000, none⟩ 2000 = 2000 ∧
    calculateDiscount ⟨"percentage", 50, some 1000⟩ 10000 = 1000 := by
  have hfd : ∀ x : Int, Int.fdiv x 100 = x / 100 := fun x => Int.fdiv_eq_ediv x (by norm_num)
  refine ⟨?_, ?_, ?_, ?_, ?_, by decide, by decide, by decide⟩
  · intro hp hm hnn
    unfold calculateDiscount
    rw [if_pos (by simp [hp]), hm]
    simp only [hfd]
    generalize subtotal * d.value = x at hnn ⊢
    omega
  · intro hp m hm
    unfold calculateDiscount
    rw [if_pos (by simp [hp]), hm]
    exact ⟨min_le_right _ _, rfl⟩
  · intro hp
    unfold calculateDiscount
    rw [if_neg (by simpa using hp)]
    exact ⟨min_le_right _ _, min_le_left _ _, fun hle => min_eq_left hle⟩
  · intro hz hv hm
    unfold calculateDiscount
    split
    · rw [hz]
      simp only [zero_mul]
      cases hcap : d.max_discount_cents with
      | none => simp [Int.fdiv]
      | some m =>
        have := hm m hcap
        simp only [Int.zero_fdiv]
        omega
    · rw [hz]
      simp only [min_def]
      split <;> omega
  · intro hz hs hm
    unfold calculateDiscount
    split
    · rw [hz]
      simp only [mul_zero]
      cases hcap : d.max_discount_cents with
      | none => simp [Int.fdiv]
      | some m =>
        have := hm m hcap
        simp only [Int.zero_fdiv]
        omega
    · rw [hz]
      simp only [min_def]
      split <;> omega

/-- C7 witness: the general parts applied at concrete discounts. -/
theorem C7_calculate_discount_witness :
    (100 * calculateDiscount ⟨"percentage", 15, none⟩ 999 ≤ 999 * 15 ∧
      999 * 15 < 100 * (calculateDiscount ⟨"percentage", 15, none⟩ 999 + 1)) ∧
    calculateDiscount ⟨"fixed_amount", 5000, none⟩ 2000 ≤ 2000 ∧
    calculateDiscount ⟨"percentage", 10, some 700⟩ 0 = 0 :=
  ⟨(C7_calculate_discount ⟨"percentage", 15, none⟩ 999).1 rfl rfl (by decide),
   ((C7_calculate_discount ⟨"fixed_amount", 5000, none⟩ 2000).2.2.1 (by decide)).1,
   (C7_calculate_discount ⟨"percentage", 10, some 700⟩ 0).2.2.2.1 rfl (by decide)
     (by intro m hm; simp at hm; omega)⟩

/-! ### Rollback machinery (claims C3, C6, C8, C10)

Floored releases against one sku compose as a "ramp": applying a non-empty
sequence of floored decrements is one floored decrement by the total. -/

/-- The quantities of the items matching a sku, in order. -/
def qtysAt (its : List CartItem) (k : Nat) : List Int :=
  (its.filter (fun it => it.sku == k)).map (fun it => it.qty)

/-- Scalar fold of floored releases. -/
def rampFold (x : Int) (qs : List Int) : Int :=
  qs.foldl (fun a q => max (a - q) 0) x

/-- Every row of the table has `0 <= reserved` (the lower half of the §3
invariant, all the rollback argument needs). -/
def invNonneg (inv : Inventory) : Prop := ∀ k r, inv k = some r → 0 ≤ r.reserved

lemma rampFold_nil (x : Int) : rampFold x [] = x := rfl

lemma rampFold_ne_nil (qs : List Int) : ∀ x : Int, qs ≠ [] → (∀ q ∈ qs, 0 ≤ q) →
    rampFold x qs = max (x - qs.sum) 0 := by
  induction qs with
  | nil => simp
  | cons q rest ih =>
    intro x _ hq
    cases rest with
    | nil => simp [rampFold]
    | cons q2 r2 =>
      have h1 : rampFold x (q :: q2 :: r2) = rampFold (max (x - q) 0) (q2 :: r2) := rfl
      rw [h1, ih (max (x - q) 0) (by simp) (fun a ha => hq a (by simp [ha]))]
      have hsum : (0 : Int) ≤ (q2 :: r2).sum :=
        List.sum_nonneg (fun a ha => hq a (by simp [ha]))
      have hq0 : 0 ≤ q := hq q (by simp)
      simp only [List.sum_cons] at hsum ⊢
      omega

/-- Releasing a just-reserved extra quantity at the end of a release
sequence cancels exactly, for a nonnegative starting value. -/
lemma rampFold_cancel (x q : Int) (qs : List Int) (hx : 0 ≤ x)
    (hqs : ∀ a ∈ qs, 0 ≤ a) (hq : 0 ≤ q) :
    rampFold (x + q) (qs ++ [q]) = rampFold x qs := by
  cases hqs0 : qs with
  | nil =>
    simp only [List.nil_append]
    rw [rampFold_ne_nil [q] (x + q) (by simp) (by simpa using hq), rampFold_nil]
    simp
    omega
  | cons a rest =>
    rw [← hqs0]
    have hne : qs ≠ [] := by simp [hqs0]
    rw [rampFold_ne_nil (qs ++ [q]) (x + q) (by simp)
          (by intro b hb; rcases List.mem_append.mp hb with h | h
              · exact hqs b h
              · simp at h; omega),
        rampFold_ne_nil qs x hne hqs]
    simp only [List.sum_append, List.sum_cons, List.sum_nil]
    omega

/-- Pointwise view of `releaseReservedInventory` / the sweep's release
loop: at each sku it is the ramp fold of the matching quantities. -/
lemma releaseItems_apply (its : List CartItem) : ∀ (inv : Inventory) (k : Nat),
    releaseItems inv its k =
      (inv k).map (fun r => { r with reserved := rampFold r.reserved (qtysAt its k) }) := by
  induction its with
  | nil =>
    intro inv k
    simp only [releaseItems, List.foldl_nil, qtysAt, List.filter_nil, List.map_nil]
    cases h : inv k with
    | none => rfl
    | some r => rfl
  | cons it rest ih =>
    intro inv k
    have h1 : releaseItems inv (it :: rest) =
        releaseItems (releaseRow inv it.sku it.qty) rest := rfl
    rw [h1, ih]
    by_cases hk : k = it.sku
    · have hfil : qtysAt (it :: rest) k = it.qty :: qtysAt rest k := by
        simp [qtysAt, List.filter_cons, hk]
      rw [hfil]
      have hrow : releaseRow inv it.sku it.qty k =
          (inv k).map (fun r => releaseUpd r it.qty) := by
        simp [releaseRow, hk]
      rw [hrow]
      cases h : inv k with
      | none => simp
      | some r => rfl
    · have hfil : qtysAt (it :: rest) k = qtysAt rest k := by
        simp [qtysAt, List.filter_cons, Ne.symm hk]
      have hrow : releaseRow inv it.sku it.qty k = inv k := by
        simp [releaseRow, hk]
      rw [hfil, hrow]

/-- Elements of `qtysAt` are quantities of the underlying items. -/
lemma qtysAt_mem {its : List CartItem} {k : Nat} {a : Int} (h : a ∈ qtysAt its k) :
    ∃ it ∈ its, a = it.qty := by
  unfold qtysAt at h
  rcases List.mem_map.mp h with ⟨it, hit, rfl⟩
  exact ⟨it, List.mem_of_mem_filter hit, rfl⟩

/-- Inversion of a successful conditional reserve. -/
lemma reserveRow_success {inv inv2 : Inventory} {sku : Nat} {qty : Int}
    (h : reserveRow inv sku qty = (inv2, 1)) :
    ∃ r, inv sku = some r ∧ r.on_hand - r.reserved ≥ qty ∧
      inv2 = fun k => if k = sku then some { r with reserved := r.reserved + qty }
             else inv k := by
  cases hrow : inv sku with
  | none => simp [reserveRow, hrow] at h
  | some r =>
    by_cases hc : r.on_hand - r.reserved ≥ qty
    · refine ⟨r, rfl, hc, ?_⟩
      simp only [reserveRow, hrow, if_pos hc, Prod.mk.injEq] at h
      exact h.1.symm
    · simp [reserveRow, hrow, hc] at h

/-- A successful conditional reserve preserves row nonnegativity. -/
lemma invNonneg_reserveRow {inv inv2 : Inventory} {sku : Nat} {qty : Int}
    (hn : invNonneg inv) (hq : 0 ≤ qty) (h : reserveRow inv sku qty = (inv2, 1)) :
    invNonneg inv2 := by
  rcases reserveRow_success h with ⟨r, hrow, hc, rfl⟩
  intro k rr hk
  have hk2 : (if k = sku then some { r with reserved := r.reserved + qty }
      else inv k) = some rr := hk
  by_cases hks : k = sku
  · rw [if_pos hks] at hk2
    have := hn sku r hrow
    cases hk2
    simp
    omega
  · rw [if_neg hks] at hk2
    exact hn k rr hk2

/-- The key cancellation: releasing the accumulator plus the newly reserved
item over the post-reserve table equals releasing only the accumulator over
the pre-reserve table. -/
lemma releaseItems_after_reserve {inv inv2 : Inventory} {it : CartItem}
    (acc : List CartItem) (hn : invNonneg inv) (hq : 0 ≤ it.qty)
    (hacc : ∀ a ∈ acc, 0 ≤ a.qty)
    (hres : reserveRow inv it.sku it.qty = (inv2, 1)) :
    releaseItems inv2 (acc ++ [it]) = releaseItems inv acc := by
  rcases reserveRow_success hres with ⟨r, hrow, hc, rfl⟩
  funext k
  rw [releaseItems_apply, releaseItems_apply]
  by_cases hk : k = it.sku
  · subst hk
    have hfil : qtysAt (acc ++ [it]) it.sku = qtysAt acc it.sku ++ [it.qty] := by
      simp [qtysAt, List.filter_append]
    have hx : 0 ≤ r.reserved := hn it.sku r hrow
    have hqs : ∀ a ∈ qtysAt acc it.sku, 0 ≤ a := by
      intro a ha
      rcases qtysAt_mem ha with ⟨x, hxm, rfl⟩
      exact hacc x hxm
    have hcan := rampFold_cancel r.reserved it.qty (qtysAt acc it.sku) hx hqs hq
    simp [hfil, hrow, hcan]
  · have hfil : qtysAt (acc ++ [it]) k = qtysAt acc k := by
      simp [qtysAt, List.filter_append, Ne.symm hk]
    simp [hfil, hk]

/-- The conditional update affects zero rows or one row. -/
lemma reserveRow_changes (inv : Inventory) (sku : Nat) (qty : Int) :
    (reserveRow inv sku qty).2 = 0 ∨ (reserveRow inv sku qty).2 = 1 := by
  cases hrow : inv sku with
  | none => simp [reserveRow, hrow]
  | some r =>
    by_cases hc : r.on_hand - r.reserved ≥ qty
    · simp [reserveRow, hrow, hc]
    · simp [reserveRow, hrow, hc]

/-- Specification of the reservation loop (checkout.ts:254-271): on failure
the returned inventory is the entry inventory with the accumulator rolled
back, and the reported sku belongs to the remaining items; on success the
accumulator collects every item and rolling the final accumulator back
restores the entry inventory. -/
lemma reserveLoop_spec (items : List CartItem) : ∀ (inv : Inventory)
    (acc : List CartItem), invNonneg inv → (∀ a ∈ items, 0 ≤ a.qty) →
    (∀ a ∈ acc, 0 ≤ a.qty) →
    (∀ res k acc2, reserveLoop inv acc items = (res, some k, acc2) →
        res = releaseItems inv acc ∧ k ∈ items.map (fun a => a.sku)) ∧
    (∀ res acc2, reserveLoop inv acc items = (res, none, acc2) →
        acc2 = acc ++ items ∧ releaseItems res acc2 = releaseItems inv acc) := by
  induction items with
  | nil =>
    intro inv acc hn hitems hacc
    constructor
    · intro res k acc2 h
      simp [reserveLoop] at h
    · intro res acc2 h
      simp only [reserveLoop, Prod.mk.injEq] at h
      obtain ⟨h1, _, h3⟩ := h
      subst h1
      subst h3
      simp
  | cons it rest ih =>
    intro inv acc hn hitems hacc
    have hq0 : 0 ≤ it.qty := hitems it (by simp)
    by_cases hfail : (reserveRow inv it.sku it.qty).2 = 0
    · have hstep : reserveLoop inv acc (it :: rest) =
          (releaseItems inv acc, some it.sku, acc) := by
        simp [reserveLoop, hfail]
      constructor
      · intro res k acc2 h
        rw [hstep] at h
        simp only [Prod.mk.injEq, Option.some.injEq] at h
        obtain ⟨h1, h2, _⟩ := h
        exact ⟨h1.symm, by simp [← h2]⟩
      · intro res acc2 h
        rw [hstep] at h
        simp at h
    · have hch : (reserveRow inv it.sku it.qty).2 = 1 := by
        rcases reserveRow_changes inv it.sku it.qty with h | h
        · exact absurd h hfail
        · exact h
      have hres : reserveRow inv it.sku it.qty =
          ((reserveRow inv it.sku it.qty).1, 1) := by
        rw [← hch]
      have hn2 : invNonneg (reserveRow inv it.sku it.qty).1 :=
        invNonneg_reserveRow hn hq0 hres
      have hrel : releaseItems (reserveRow inv it.sku it.qty).1 (acc ++ [it]) =
          releaseItems inv acc :=
        releaseItems_after_reserve acc hn hq0 hacc hres
      have hstep : reserveLoop inv acc (it :: rest) =
          reserveLoop (reserveRow inv it.sku it.qty).1 (acc ++ [it]) rest := by
        simp [reserveLoop, hfail]
      have hacc2 : ∀ a ∈ acc ++ [it], 0 ≤ a.qty := by
        intro a ha
        rcases List.mem_append.mp ha with h | h
        · exact hacc a h
        · simp at h; subst h; exact hq0
      have ihs := ih (reserveRow inv it.sku it.qty).1 (acc ++ [it]) hn2
        (fun a ha => hitems a (by simp [ha])) hacc2
      constructor
      · intro res k acc2 h
        rw [hstep] at h
        obtain ⟨h1, h2⟩ := ihs.1 res k acc2 h
        refine ⟨by rw [h1, hrel], by simp [h2]⟩
      · intro res acc2 h
        rw [hstep] at h
        obtain ⟨h1, h2⟩ := ihs.2 res acc2 h
        constructor
        · rw [h1]
          simp
        · rw [h2, hrel]

/-- C3: checkout is all-or-nothing.  Under the §3 invariant (nonnegative
reserved) and route-validated quantities: every non-`ok` outcome leaves the
whole state — every SKU's reserved count and the cart — exactly as before
the call (the compensating rollback is exact, for a failed reservation as
well as for a coupon/session failure after full reservation); an
`InsufficientInventory` outcome names one of the cart's SKUs; and only on
processor-session success does the cart transition to `checked_out` with
the session id and finalized discount amount stored. -/
theorem C3_checkout_atomic (s : Sys) (cid : Nat) (processorOk : Bool) (sess : Nat)
    (amt : Int) (hn : invNonneg s.inventory)
    (hq : ∀ cart, lookupCart s cid = some cart → ∀ a ∈ cart.items, 1 ≤ a.qty) :
    ((checkoutStep s cid processorOk sess amt).2 ≠ .ok →
        (checkoutStep s cid processorOk sess amt).1 = s) ∧
    (∀ k, (checkoutStep s cid processorOk sess amt).2 = .insufficient k →
        ∃ cart, lookupCart s cid = some cart ∧ k ∈ cart.items.map (fun a => a.sku)) ∧
    ((checkoutStep s cid processorOk sess amt).2 = .ok →
        processorOk = true ∧
        ∃ cart, lookupCart s cid = some cart ∧ cart.status = .opened ∧
          cart.items ≠ [] ∧
          (checkoutStep s cid processorOk sess amt).1.carts =
            setCart s.carts cid (fun c =>
              { c with status := .checked_out, stripe_session := some sess,
                       discount_amount_cents := amt })) := by
  cases hc : lookupCart s cid with
  | none =>
    have hstep : checkoutStep s cid processorOk sess amt = (s, .notFound) := by
      simp [checkoutStep, hc]
    refine ⟨fun _ => by rw [hstep], fun k hk => ?_, fun hok => ?_⟩
    · rw [hstep] at hk; simp at hk
    · rw [hstep] at hok; simp at hok
  | some cart =>
    by_cases hopen : cart.status = .opened
    · by_cases hempty : cart.items = []
      · have hstep : checkoutStep s cid processorOk sess amt = (s, .emptyCart) := by
          simp [checkoutStep, hc, hopen, hempty]
        refine ⟨fun _ => by rw [hstep], fun k hk => ?_, fun hok => ?_⟩
        · rw [hstep] at hk; simp at hk
        · rw [hstep] at hok; simp at hok
      · have hq0 : ∀ a ∈ cart.items, 0 ≤ a.qty := by
          intro a ha
          have := hq cart hc a ha
          omega
        have hspec := reserveLoop_spec cart.items s.inventory [] hn hq0 (by simp)
        rcases hloop : reserveLoop s.inventory [] cart.items with ⟨inv2, ofail, racc⟩
        cases ofail with
        | some k =>
          obtain ⟨hres, hk⟩ := hspec.1 inv2 k racc hloop
          have hinv : inv2 = s.inventory := hres
          have hstep : checkoutStep s cid processorOk sess amt =
              ({ s with inventory := inv2 }, .insufficient k) := by
            simp [checkoutStep, hc, hopen, hempty, hloop]
          refine ⟨fun _ => ?_, fun k2 hk2 => ?_, fun hok => ?_⟩
          · rw [hstep]
            rw [hinv]
          · rw [hstep] at hk2
            simp at hk2
            subst hk2
            exact ⟨cart, rfl, hk⟩
          · rw [hstep] at hok; simp at hok
        | none =>
          obtain ⟨hacc2, hrel⟩ := hspec.2 inv2 racc hloop
          cases processorOk with
          | true =>
            have hstep : checkoutStep s cid true sess amt =
                ({ s with inventory := inv2,
                          carts := setCart s.carts cid (fun c =>
                            { c with status := .checked_out,
                                     stripe_session := some sess,
                                     discount_amount_cents := amt }) }, .ok) := by
              simp [checkoutStep, hc, hopen, hempty, hloop]
            refine ⟨fun hne => absurd (by rw [hstep]) hne, fun k2 hk2 => ?_,
              fun _ => ⟨rfl, cart, rfl, hopen, hempty, by rw [hstep]⟩⟩
            rw [hstep] at hk2
            simp at hk2
          | false =>
            have hstep : checkoutStep s cid false sess amt =
                ({ s with inventory := releaseItems inv2 racc }, .processorFail) := by
              simp [checkoutStep, hc, hopen, hempty, hloop]
            have hrel2 : releaseItems inv2 racc = s.inventory := hrel
            refine ⟨fun _ => ?_, fun k2 hk2 => ?_, fun hok => ?_⟩
            · rw [hstep]
              rw [hrel2]
            · rw [hstep] at hk2; simp at hk2
            · rw [hstep] at hok; simp at hok
    · have hstep : checkoutStep s cid processorOk sess amt = (s, .notOpen) := by
        simp [checkoutStep, hc, hopen]
      refine ⟨fun _ => by rw [hstep], fun k hk => ?_, fun hok => ?_⟩
      · rw [hstep] at hk; simp at hk
      · rw [hstep] at hok; simp at hok

/-- C3 witness cart: the spec §8 example — [sku 0: qty 5 of 5 available,
sku 1: qty 3 of 2 available]. -/
def c3cart : Cart :=
  { status := .opened, items := [⟨0, 5⟩, ⟨1, 3⟩], expires_at := 0,
    customer_email := "w@x.y", discount_code := none,
    discount_id := none, discount_amount_cents := 0,
    stripe_session := none }

/-- C3 witness state. -/
def c3sys : Sys :=
  { inventory := fun k => if k = 0 then some ⟨5, 0⟩ else if k = 1 then some ⟨2, 0⟩ else none,
    carts := [(0, c3cart)],
    discounts := [], variants := [], events := [], orders := [], usage := [],
    logs := [] }

lemma c3sys_invNonneg : invNonneg c3sys.inventory := by
  intro k r h
  simp only [c3sys] at h
  by_cases h0 : k = 0
  · rw [if_pos h0] at h
    cases h
    decide
  · rw [if_neg h0] at h
    by_cases h1 : k = 1
    · rw [if_pos h1] at h
      cases h
      decide
    · rw [if_neg h1] at h
      cases h

/-- C3 witness: the all-or-nothing theorem applied at the concrete spec §8
scenario. -/
theorem C3_checkout_atomic_witness :
    invNonneg c3sys.inventory ∧
    (∀ cart, lookupCart c3sys 0 = some cart → ∀ a ∈ cart.items, 1 ≤ a.qty) ∧
    (checkoutStep c3sys 0 true 7 0).2 = .insufficient 1 ∧
    (checkoutStep c3sys 0 true 7 0).1 = c3sys := by
  have hq : ∀ cart, lookupCart c3sys 0 = some cart → ∀ a ∈ cart.items, 1 ≤ a.qty := by
    intro cart hcart
    have h4 : (some cart : Option Cart) = some c3cart := by
      rw [← hcart]
      rfl
    injection h4 with h5
    subst h5
    decide
  exact ⟨c3sys_invNonneg, hq, by decide,
    (C3_checkout_atomic c3sys 0 true 7 0 c3sys_invNonneg hq).1 (by decide)⟩

/-- C8 counterexample input: the same two-sku insufficiency scenario. -/
def c8sys : Sys :=
  { inventory := fun k => if k = 0 then some ⟨5, 0⟩ else if k = 1 then some ⟨2, 0⟩ else none,
    carts := [(0, { status := .opened, items := [⟨0, 5⟩, ⟨1, 3⟩], expires_at := 0,
                    customer_email := "w@x.y", discount_code := none,
                    discount_id := none, discount_amount_cents := 0,
                    stripe_session := none })],
    discounts := [], variants := [], events := [], orders := [], usage := [],
    logs := [] }

/-- C8: refuted as stated.  In this checkout call the reservation of sku 0
succeeds (the loop's accumulator returns `[⟨0, 5⟩]`) and is then rolled
back by `releaseReservedInventory` when sku 1 fails — a release of reserved
inventory — yet the inventory log stays empty: the checkout rollback
appends no `InventoryLogEntry` at all (checkout.ts:245-252 has no
`inventory_logs` insert), contradicting "every release … appends an
InventoryLogEntry with reason release". -/
theorem C8_counterexample :
    (reserveLoop c8sys.inventory [] [⟨0, 5⟩, ⟨1, 3⟩]).2 = (some 1, [⟨0, 5⟩]) ∧
    (checkoutStep c8sys 0 true 7 0).2 = .insufficient 1 ∧
    (checkoutStep c8sys 0 true 7 0).1.logs = [] ∧
    (checkoutStep c8sys 0 true 7 0).1.inventory 0 = some ⟨5, 0⟩ := by
  decide

/-- C8 (amended): every release decrements `reserved` floored at zero and
leaves `on_hand` alone; the expiry sweep appends an InventoryLogEntry with
reason "release" and delta `-qty` per released item, but the compensating
rollback inside checkout performs its releases without appending any log
entry (the checkout call never touches the log). -/
theorem C8_release_logging :
    (∀ (r : InvRec) (q : Int), (releaseUpd r q).reserved = max (r.reserved - q) 0 ∧
        (releaseUpd r q).on_hand = r.on_hand) ∧
    (∀ (s : Sys) (cid : Nat) (ok : Bool) (sess : Nat) (amt : Int),
        (checkoutStep s cid ok sess amt).1.logs = s.logs) ∧
    (∀ (s : Sys) (t : Int),
        (sweepStep s t).logs = s.logs ++ releaseLogs (sweptItems s t) ∧
        ∀ en ∈ releaseLogs (sweptItems s t),
          en.reason = "release" ∧ ∃ it ∈ sweptItems s t,
            en.sku = it.sku ∧ en.delta = -it.qty) := by
  refine ⟨fun r q => ⟨rfl, rfl⟩, ?_, ?_⟩
  · intro s cid ok sess amt
    cases hc : lookupCart s cid with
    | none => simp [checkoutStep, hc]
    | some cart =>
      by_cases hopen : cart.status = .opened
      · by_cases hempty : cart.items = []
        · simp [checkoutStep, hc, hopen, hempty]
        · rcases hloop : reserveLoop s.inventory [] cart.items with ⟨inv2, ofail, racc⟩
          cases ofail with
          | some k => simp [checkoutStep, hc, hopen, hempty, hloop]
          | none => cases ok <;> simp [checkoutStep, hc, hopen, hempty, hloop]
      · simp [checkoutStep, hc, hopen]
  · intro s t
    refine ⟨rfl, ?_⟩
    intro en hen
    unfold releaseLogs at hen
    rcases List.mem_map.mp hen with ⟨it, hit, rfl⟩
    exact ⟨rfl, it, hit, rfl, rfl⟩

/-- C8 witness: the amended theorem at a concrete state — a sweep over one
expired one-item cart appends exactly the release log row, and a concrete
checkout leaves the log untouched. -/
theorem C8_release_logging_witness :
    (releaseUpd ⟨5, 2⟩ 3).reserved = max (2 - 3) 0 ∧
    (checkoutStep c8sys 0 true 7 0).1.logs = c8sys.logs ∧
    (sweepStep c8sys 10).logs = c8sys.logs ++ releaseLogs (sweptItems c8sys 10) :=
  ⟨(C8_release_logging.1 ⟨5, 2⟩ 3).1,
   C8_release_logging.2.1 c8sys 0 true 7 0,
   (C8_release_logging.2.2 c8sys 10).1⟩

/-! ### Keyed lookups through keyed updates (claims C5, C6, C9) -/

/-- `find?` by key commutes with mapping a key-preserving function. -/
lemma find?_map_fst {α : Type} {f : Nat × α → Nat × α}
    (hf : ∀ p, (f p).1 = p.1) (key : Nat) : ∀ l : List (Nat × α),
    List.find? (fun p => p.1 == key) (l.map f) =
      (List.find? (fun p => p.1 == key) l).map f := by
  intro l
  induction l with
  | nil => rfl
  | cons p rest ih =>
    cases hp : (p.1 == key) with
    | true => simp [List.find?_cons, hf p, hp]
    | false => simp [List.find?_cons, hf p, hp, ih]

/-- Every item swept by the sweep has a route-validated quantity when every
stored cart does. -/
lemma sweptItems_qty {s : Sys} {t : Int}
    (hq : ∀ p ∈ s.carts, ∀ a ∈ p.2.items, 1 ≤ a.qty) :
    ∀ a ∈ sweptItems s t, 1 ≤ a.qty := by
  intro a ha
  unfold sweptItems at ha
  rcases List.mem_flatten.mp ha with ⟨l, hl, hal⟩
  rcases List.mem_map.mp hl with ⟨p, hp, rfl⟩
  exact hq p (List.mem_of_mem_filter hp) a hal

/-- C6: the sweep transitions exactly the carts that are `open` with
`expires_at` in the past — each such cart becomes `expired`, every other
cart is returned unchanged — and its inventory effect is precisely the
floored release of every swept item's quantity per sku, together with the
"release" log rows; events, orders, usage and discounts are untouched. -/
theorem C6_sweep (s : Sys) (t : Int) (hn : invNonneg s.inventory)
    (hq : ∀ p ∈ s.carts, ∀ a ∈ p.2.items, 1 ≤ a.qty) :
    (∀ cid cart, lookupCart s cid = some cart →
        lookupCart (sweepStep s t) cid =
          some (if cartExpiredNow cart t then { cart with status := .expired }
                else cart)) ∧
    (∀ k, (sweepStep s t).inventory k =
        (s.inventory k).map (fun r =>
          { r with reserved := max (r.reserved - (qtysAt (sweptItems s t) k).sum) 0 })) ∧
    (sweepStep s t).logs = s.logs ++ releaseLogs (sweptItems s t) ∧
    (sweepStep s t).events = s.events ∧ (sweepStep s t).orders = s.orders ∧
    (sweepStep s t).usage = s.usage ∧ (sweepStep s t).discounts = s.discounts := by
  refine ⟨?_, ?_, rfl, rfl, rfl, rfl, rfl⟩
  · intro cid cart hc
    unfold lookupCart at hc ⊢
    have hmap : (sweepStep s t).carts = s.carts.map (fun p =>
        if cartExpiredNow p.2 t then (p.1, { p.2 with status := .expired }) else p) := rfl
    rw [hmap, find?_map_fst (by intro p; split <;> rfl) cid s.carts]
    rcases hfind : List.find? (fun p => p.1 == cid) s.carts with _ | p
    · rw [hfind] at hc
      simp at hc
    · rw [hfind] at hc
      have hc2 : p.2 = cart := by simpa using hc
      subst hc2
      rw [hfind]
      by_cases hp : cartExpiredNow p.2 t = true
      · simp [hp]
      · simp [hp]
  · intro k
    have h1 : (sweepStep s t).inventory k =
        releaseItems s.inventory (sweptItems s t) k := rfl
    rw [h1, releaseItems_apply]
    have hsw : ∀ a ∈ qtysAt (sweptItems s t) k, 0 ≤ a := by
      intro a ha
      rcases qtysAt_mem ha with ⟨x, hxm, rfl⟩
      have := sweptItems_qty hq x hxm
      omega
    cases hrow : s.inventory k with
    | none => rfl
    | some r =>
      simp only [Option.map_some', Option.some.injEq]
      cases hq0 : qtysAt (sweptItems s t) k with
      | nil =>
        have hnn := hn k r hrow
        rw [rampFold_nil]
        simp only [List.sum_nil]
        congr 1
        omega
      | cons a rest =>
        rw [hq0] at hsw
        rw [rampFold_ne_nil (a :: rest) r.reserved (by simp) hsw]

/-- C6 witness cart: one open cart holding a reservation of 2 units, with
expires_at = 1800 (created at 0 with the 30-minute lifetime). -/
def c6cart : Cart :=
  { status := .opened, items := [⟨0, 2⟩], expires_at := 1800,
    customer_email := "a@b.c", discount_code := none,
    discount_id := none, discount_amount_cents := 0,
    stripe_session := none }

/-- C6 witness state. -/
def c6sys : Sys :=
  { inventory := fun k => if k = 0 then some ⟨5, 2⟩ else none,
    carts := [(0, c6cart)],
    discounts := [], variants := [], events := [], orders := [], usage := [],
    logs := [] }

lemma c6sys_invNonneg : invNonneg c6sys.inventory := by
  intro k r h
  simp only [c6sys] at h
  by_cases h0 : k = 0
  · rw [if_pos h0] at h
    cases h
    decide
  · rw [if_neg h0] at h
    cases h

/-- C6 witness: swept at 1860 (T+31min) the cart is expired and the
reservation fully released; swept at 1740 (T+29min) it is untouched. -/
theorem C6_sweep_witness :
    invNonneg c6sys.inventory ∧
    (∀ p ∈ c6sys.carts, ∀ a ∈ p.2.items, 1 ≤ a.qty) ∧
    lookupCart (sweepStep c6sys 1860) 0 = some { c6cart with status := .expired } ∧
    lookupCart (sweepStep c6sys 1740) 0 = some c6cart ∧
    (sweepStep c6sys 1860).inventory 0 = some ⟨5, 0⟩ ∧
    (sweepStep c6sys 1740).inventory 0 = some ⟨5, 2⟩ := by
  have hq : ∀ p ∈ c6sys.carts, ∀ a ∈ p.2.items, 1 ≤ a.qty := by decide
  refine ⟨c6sys_invNonneg, hq, ?_, ?_, ?_, ?_⟩
  · rw [(C6_sweep c6sys 1860 c6sys_invNonneg hq).1 0 _ (by rfl)]
    decide
  · rw [(C6_sweep c6sys 1740 c6sys_invNonneg hq).1 0 _ (by rfl)]
    decide
  · rw [(C6_sweep c6sys 1860 c6sys_invNonneg hq).2.1 0]
    decide
  · rw [(C6_sweep c6sys 1740 c6sys_invNonneg hq).2.1 0]
    decide

/-! ### Test-order path (claim C10) -/

/-- Total requested quantity per sku. -/
def qtySumAt (its : List CartItem) (k : Nat) : Int := (qtysAt its k).sum

/-- Pointwise view of the test-order debit loop: at each sku it subtracts
the total matching quantity from `on_hand` and does not touch `reserved`. -/
lemma debitItems_apply (its : List CartItem) : ∀ (inv : Inventory) (k : Nat),
    (its.foldl (fun iv it => debitRow iv it.sku it.qty) inv) k =
      (inv k).map (fun r => { r with on_hand := r.on_hand - qtySumAt its k }) := by
  induction its with
  | nil =>
    intro inv k
    simp only [List.foldl_nil, qtySumAt, qtysAt, List.filter_nil, List.map_nil,
      List.sum_nil]
    cases h : inv k with
    | none => rfl
    | some r => simp
  | cons it rest ih =>
    intro inv k
    have h1 : ((it :: rest).foldl (fun iv it => debitRow iv it.sku it.qty) inv) k =
        (rest.foldl (fun iv it => debitRow iv it.sku it.qty)
          (debitRow inv it.sku it.qty)) k := rfl
    rw [h1, ih]
    by_cases hk : k = it.sku
    · subst hk
      have hsum : qtySumAt (it :: rest) it.sku = it.qty + qtySumAt rest it.sku := by
        simp [qtySumAt, qtysAt, List.filter_cons]
      rw [hsum]
      have hrow : debitRow inv it.sku it.qty it.sku =
          (inv it.sku).map (fun r => debitUpd r it.qty) := by
        simp [debitRow]
      rw [hrow]
      cases h : inv it.sku with
      | none => rfl
      | some r =>
        simp only [Option.map_some', Option.some.injEq, debitUpd]
        congr 1
        omega
    · have hsum : qtySumAt (it :: rest) k = qtySumAt rest k := by
        simp [qtySumAt, qtysAt, List.filter_cons, Ne.symm hk]
      have hrow : debitRow inv it.sku it.qty k = inv k := by
        simp [debitRow, hk]
      rw [hsum, hrow]

/-- C10: the test-order path bypasses the reservation protocol: it succeeds
iff every requested item passes the read-then-check availability test
`on_hand - reserved >= qty` evaluated against the pre-state (a separate
read, not a conditional update — with duplicate-sku requests each check
still reads the untouched pre-state); on success each sku's `on_hand` is
decremented by the total requested quantity while `reserved` is untouched;
the inventory log is never written; and on failure, named after the first
failing sku, nothing at all changes. -/
theorem C10_test_order (s : Sys) (items : List CartItem) :
    ((testOrderStep s items).2 = .ok ↔
        ∀ it ∈ items, it.qty ≤ availableAt s.inventory it.sku) ∧
    ((testOrderStep s items).2 = .ok →
        ∀ k, (testOrderStep s items).1.inventory k =
          (s.inventory k).map (fun r =>
            { r with on_hand := r.on_hand - qtySumAt items k })) ∧
    (testOrderStep s items).1.logs = s.logs ∧
    (∀ k, (testOrderStep s items).2 = .insufficient k →
        (testOrderStep s items).1 = s ∧
        ∃ it ∈ items, it.sku = k ∧ availableAt s.inventory it.sku < it.qty) := by
  rcases hfind : items.find?
      (fun it => decide (availableAt s.inventory it.sku < it.qty)) with _ | it0
  · have hstep : testOrderStep s items =
        ({ s with
           orders := s.orders ++ [{ cart_id := none, items := items,
                                    discount_id := none, discount_amount_cents := 0 }],
           inventory := items.foldl (fun iv it => debitRow iv it.sku it.qty)
             s.inventory }, .ok) := by
      simp [testOrderStep, hfind]
    have hall := List.find?_eq_none.mp hfind
    refine ⟨?_, ?_, by rw [hstep], ?_⟩
    · constructor
      · intro _ it hit
        have := hall it hit
        simp at this
        omega
      · intro _
        rw [hstep]
    · intro _ k
      rw [hstep]
      exact debitItems_apply items s.inventory k
    · intro k hk
      rw [hstep] at hk
      simp at hk
  · have hstep : testOrderStep s items = (s, .insufficient it0.sku) := by
      simp [testOrderStep, hfind]
    have hmem : it0 ∈ items := List.mem_of_find?_eq_some hfind
    have hcond : availableAt s.inventory it0.sku < it0.qty := by
      have := List.find?_some hfind
      simpa using this
    refine ⟨?_, ?_, by rw [hstep], ?_⟩
    · constructor
      · intro h
        rw [hstep] at h
        simp at h
      · intro hall
        exact absurd (hall it0 hmem) (by omega)
    · intro h
      rw [hstep] at h
      simp at h
    · intro k hk
      rw [hstep] at hk
      simp at hk
      subst hk
      exact ⟨by rw [hstep], it0, hmem, rfl, hcond⟩

/-- C10 witness state: sku 0 has 5 on hand with 2 reserved (available 3). -/
def c10sys : Sys :=
  { inventory := fun k => if k = 0 then some ⟨5, 2⟩ else none,
    carts := [], discounts := [], variants := [], events := [], orders := [],
    usage := [], logs := [] }

/-- C10 witness: a passing order of 3 units debits only `on_hand`
(5 → 2, reserved stays 2) without logging; a request of 4 fails and leaves
the state untouched. -/
theorem C10_test_order_witness :
    ((testOrderStep c10sys [⟨0, 3⟩]).2 = .ok ↔
        ∀ it ∈ [(⟨0, 3⟩ : CartItem)], it.qty ≤ availableAt c10sys.inventory it.sku) ∧
    (testOrderStep c10sys [⟨0, 3⟩]).1.inventory 0 =
      (c10sys.inventory 0).map (fun r =>
        { r with on_hand := r.on_hand - qtySumAt [⟨0, 3⟩] 0 }) ∧
    (testOrderStep c10sys [⟨0, 3⟩]).1.inventory 0 = some ⟨2, 2⟩ ∧
    (testOrderStep c10sys [⟨0, 3⟩]).1.logs = c10sys.logs ∧
    (testOrderStep c10sys [⟨0, 4⟩]).1 = c10sys :=
  ⟨(C10_test_order c10sys [⟨0, 3⟩]).1,
   (C10_test_order c10sys [⟨0, 3⟩]).2.1 (by decide) 0,
   by decide,
   (C10_test_order c10sys [⟨0, 3⟩]).2.2.1,
   ((C10_test_order c10sys [⟨0, 4⟩]).2.2.2 0 (by decide)).1⟩

/-! ### Webhook discount accounting (claim C5) -/

/-- Unfolding of the webhook's discount phase when the metadata discount id
resolves to a stored discount. -/
lemma webhookDiscountPhase_found {ds : List (Nat × DiscountRec)} {did : Nat}
    {d : DiscountRec}
    (hd : (ds.find? (fun p => p.1 == did)).map (fun p => p.2) = some d)
    (amt t : Int) :
    webhookDiscountPhase ds (some did) amt t =
      ((some did, amt, discountValidNow d t && decide (amt > 0)),
       if discountValidNow d t && decide (amt > 0) then
         ds.map (fun p => if p.1 == did then (p.1, usageIncrUpd p.2) else p)
       else ds) := by
  simp [webhookDiscountPhase, hd]

/-- Looking the discount up after the conditional-increment `UPDATE`. -/
lemma lookupDiscount_incr {ds : List (Nat × DiscountRec)} {did : Nat}
    {d : DiscountRec}
    (hd : (ds.find? (fun p => p.1 == did)).map (fun p => p.2) = some d) :
    ((ds.map (fun p => if p.1 == did then (p.1, usageIncrUpd p.2) else p)).find?
        (fun p => p.1 == did)).map (fun p => p.2) = some (usageIncrUpd d) := by
  rw [find?_map_fst (by intro p; split <;> rfl) did ds]
  rcases hfind : ds.find? (fun p => p.1 == did) with _ | p
  · rw [hfind] at hd
    simp at hd
  · rw [hfind] at hd
    have hp2 : p.2 = d := by simpa using hd
    have hkey := List.find?_some hfind
    simp at hkey
    rw [hfind]
    simp [hkey, hp2]

/-- Unfolding of a first webhook processing for a known cart. -/
lemma webhookStep_found (s : Sys) (e : Nat) (cid : Nat) (dm : Option Nat)
    (t : Int) (cart : Cart) (he : e ∉ s.events) (hc : lookupCart s cid = some cart) :
    webhookStep s e true (some cid) dm t =
      { inventory := sellItems s.inventory cart.items,
        carts := s.carts,
        discounts := (webhookDiscountPhase s.discounts dm cart.discount_amount_cents t).2,
        variants := s.variants,
        events := s.events ++ [e],
        orders := s.orders ++
          [{ cart_id := some cid, items := cart.items,
             discount_id :=
               (webhookDiscountPhase s.discounts dm cart.discount_amount_cents t).1.1,
             discount_amount_cents :=
               (webhookDiscountPhase s.discounts dm cart.discount_amount_cents t).1.2.1 }],
        usage :=
          if (webhookDiscountPhase s.discounts dm cart.discount_amount_cents t).1.2.2
              && (webhookDiscountPhase s.discounts dm cart.discount_amount_cents t).1.1.isSome then
            s.usage ++
              [{ discount_id :=
                   (webhookDiscountPhase s.discounts dm cart.discount_amount_cents t).1.1.getD 0,
                 customer_email := cart.customer_email.toLower,
                 amount_cents :=
                   (webhookDiscountPhase s.discounts dm cart.discount_amount_cents t).1.2.1 }]
          else s.usage,
        logs := s.logs ++ saleLogs cart.items } := by
  simp [webhookStep, he, hc]

/-- C5 (amended): during order materialization with an attached discount
that still resolves, the created order always records the discount amount
charged at checkout time (stored on the cart), whatever the discount's
current state; `usage_count` is incremented only when the discount is
currently active/within its window with a positive charged amount, and only
if `usage_limit IS NULL OR usage_count < usage_limit` — in particular a
limit already reached is never incremented past; the `DiscountUsage` row
(with lower-cased customer email) is appended exactly when the discount was
eligible for tracking (active/within window, positive amount) — even when
the limit condition suppressed the `usage_count` increment, so the row can
be appended without the usage having been counted (see the
counterexample). -/
theorem C5_discount_usage (s : Sys) (e : Nat) (cid did : Nat) (t : Int)
    (cart : Cart) (d : DiscountRec)
    (he : e ∉ s.events) (hc : lookupCart s cid = some cart)
    (hd : lookupDiscount s did = some d) :
    ((webhookStep s e true (some cid) (some did) t).orders =
        s.orders ++ [{ cart_id := some cid, items := cart.items,
                       discount_id := some did,
                       discount_amount_cents := cart.discount_amount_cents }]) ∧
    ((webhookStep s e true (some cid) (some did) t).usage =
        if discountValidNow d t && decide (cart.discount_amount_cents > 0) then
          s.usage ++ [{ discount_id := did,
                        customer_email := cart.customer_email.toLower,
                        amount_cents := cart.discount_amount_cents }]
        else s.usage) ∧
    (lookupDiscount (webhookStep s e true (some cid) (some did) t) did =
        some (if discountValidNow d t && decide (cart.discount_amount_cents > 0)
              then usageIncrUpd d else d)) ∧
    (∀ l, d.usage_limit = some l → l ≤ d.usage_count →
        lookupDiscount (webhookStep s e true (some cid) (some did) t) did =
          some d) := by
  have hd2 : (s.discounts.find? (fun p => p.1 == did)).map (fun p => p.2) = some d := hd
  have hphase := webhookDiscountPhase_found hd2 cart.discount_amount_cents t
  have hstep := webhookStep_found s e cid (some did) t cart he hc
  rw [hphase] at hstep
  have hincr : ∀ l, d.usage_limit = some l → l ≤ d.usage_count →
      usageIncrUpd d = d := by
    intro l hl hle
    unfold usageIncrUpd
    rw [hl]
    have : ¬ d.usage_count < l := by omega
    simp [this]
  refine ⟨by rw [hstep], by rw [hstep]; simp, ?_, ?_⟩
  · show ((webhookStep s e true (some cid) (some did) t).discounts.find?
        (fun p => p.1 == did)).map (fun p => p.2) =
      some (if discountValidNow d t && decide (cart.discount_amount_cents > 0)
            then usageIncrUpd d else d)
    rw [hstep]
    cases htr : discountValidNow d t && decide (cart.discount_amount_cents > 0) with
    | false => simpa using hd2
    | true => simpa using lookupDiscount_incr hd2
  · intro l hl hle
    show ((webhookStep s e true (some cid) (some did) t).discounts.find?
        (fun p => p.1 == did)).map (fun p => p.2) = some d
    rw [hstep]
    cases htr : discountValidNow d t && decide (cart.discount_amount_cents > 0) with
    | false => simpa using hd2
    | true =>
      have h2 := lookupDiscount_incr hd2
      rw [hincr l hl hle] at h2
      simpa using h2

/-- C5 counterexample cart: checkout charged 500 cents against discount 5. -/
def c5cart : Cart :=
  { status := .checked_out, items := [], expires_at := 0,
    customer_email := "ann@shop.example", discount_code := some "D",
    discount_id := some 5, discount_amount_cents := 500,
    stripe_session := some 7 }

/-- C5 counterexample discount: `usage_limit = 1` already exhausted
(`usage_count = 1`) but still active. -/
def c5disc : DiscountRec :=
  { code := "D", status := "active", starts_at := none, expires_at := none,
    usage_limit := some 1, usage_count := 1 }

/-- C5 counterexample state. -/
def c5sys : Sys :=
  { inventory := fun _ => none, carts := [(0, c5cart)],
    discounts := [(5, c5disc)], variants := [], events := [], orders := [],
    usage := [], logs := [] }

/-- C5: refuted as stated.  Processing a fulfilling event for a cart whose
attached discount has `usage_limit = 1` and `usage_count = 1` appends a
DiscountUsage row while the conditional update increments nothing (the
discounts table is unchanged, `usage_count` stays 1): the DiscountUsage row
is appended even though the usage was not counted, so "appended exactly
when the usage was counted" fails (the appended-row condition in
webhooks.ts:137 does not consult whether the UPDATE of webhooks.ts:95-101
matched). -/
theorem C5_counterexample :
    (webhookStep c5sys 42 true (some 0) (some 5) 100).usage.length = 1 ∧
    (webhookStep c5sys 42 true (some 0) (some 5) 100).discounts = [(5, c5disc)] ∧
    (webhookStep c5sys 42 true (some 0) (some 5) 100).orders =
      [{ cart_id := some 0, items := [], discount_id := some 5,
         discount_amount_cents := 500 }] := by
  decide

/-- C5 witness: the amended theorem at the concrete exhausted-limit state —
the order still records the charged 500, and the limit-respecting update
leaves the discount row untouched. -/
theorem C5_discount_usage_witness :
    (42 ∉ c5sys.events) ∧
    lookupCart c5sys 0 = some c5cart ∧
    lookupDiscount c5sys 5 = some c5disc ∧
    (webhookStep c5sys 42 true (some 0) (some 5) 100).orders =
      c5sys.orders ++ [{ cart_id := some 0, items := c5cart.items,
                         discount_id := some 5,
                         discount_amount_cents := c5cart.discount_amount_cents }] ∧
    lookupDiscount (webhookStep c5sys 42 true (some 0) (some 5) 100) 5 =
      some c5disc :=
  ⟨by decide, rfl, rfl,
   (C5_discount_usage c5sys 42 0 5 100 c5cart c5disc (by decide) rfl rfl).1,
   (C5_discount_usage c5sys 42 0 5 100 c5cart c5disc (by decide) rfl rfl).2.2.2
     1 rfl (by decide)⟩

/-! ### Expiry is not consulted by cart-mutating routes (claim C9) -/

/-- Updating the same cart twice composes. -/
lemma setCart_setCart (carts : List (Nat × Cart)) (cid : Nat) (f g : Cart → Cart) :
    setCart (setCart carts cid f) cid g = setCart carts cid (fun c => g (f c)) := by
  induction carts with
  | nil => rfl
  | cons p rest ih =>
    simp only [setCart, List.map_cons] at ih ⊢
    by_cases hp : (p.1 == cid) = true
    · simp [hp]
      simpa [setCart] using ih
    · simp [hp]
      simpa [setCart] using ih

/-- A cart update that commutes with overwriting `expires_at` commutes with
the expiry overwrite at the `setCart` level. -/
lemma setCart_expiry_comm (carts : List (Nat × Cart)) (cid : Nat) (e : Int)
    (f : Cart → Cart)
    (hf : ∀ c, f { c with expires_at := e } = { f c with expires_at := e }) :
    setCart (setCart carts cid (fun c => { c with expires_at := e })) cid f =
      setCart (setCart carts cid f) cid (fun c => { c with expires_at := e }) := by
  rw [setCart_setCart, setCart_setCart]
  congr 1
  funext c
  exact hf c

/-- Looking the operated cart up after the expiry overwrite. -/
lemma lookupCart_setExpiry (s : Sys) (cid : Nat) (e : Int) :
    lookupCart (setExpiry s cid e) cid =
      (lookupCart s cid).map (fun c => { c with expires_at := e }) := by
  unfold lookupCart setExpiry setCart
  rw [find?_map_fst (by intro p; split <;> rfl) cid s.carts]
  rcases hfind : List.find? (fun p => p.1 == cid) s.carts with _ | p
  · rw [hfind]
    rfl
  · rw [hfind]
    have hkey := List.find?_some hfind
    simp at hkey
    simp [hkey]

/-- Overwriting `expires_at` commutes with replacing the inventory. -/
lemma setExpiry_inventory (s : Sys) (cid : Nat) (e : Int) (inv2 : Inventory) :
    ({ setExpiry s cid e with inventory := inv2 } : Sys) =
      setExpiry { s with inventory := inv2 } cid e := rfl

/-- Overwriting `expires_at` commutes with the checkout success update. -/
lemma checkout_ok_state_comm (s : Sys) (cid : Nat) (e : Int) (sess : Nat)
    (amt : Int) (inv2 : Inventory) :
    ({ setExpiry s cid e with
        inventory := inv2,
        carts := setCart (setExpiry s cid e).carts cid (fun c => { c with status := .checked_out, stripe_session := some sess, discount_amount_cents := amt }) } : Sys) =
      setExpiry { s with
        inventory := inv2,
        carts := setCart s.carts cid (fun c => { c with status := .checked_out, stripe_session := some sess, discount_amount_cents := amt }) } cid e := by
  unfold setExpiry
  simp only []
  congr 1
  exact setCart_expiry_comm s.carts cid e _ (fun c => rfl)

/-- The checkout route commutes with overwriting the cart's `expires_at`:
its gate reads only the status, its body only the items and the
inventory. -/
lemma checkoutStep_setExpiry (s : Sys) (cid : Nat) (e : Int) (ok : Bool)
    (sess : Nat) (amt : Int) :
    checkoutStep (setExpiry s cid e) cid ok sess amt =
      (setExpiry (checkoutStep s cid ok sess amt).1 cid e,
       (checkoutStep s cid ok sess amt).2) := by
  have hi : (setExpiry s cid e).inventory = s.inventory := rfl
  cases hc : lookupCart s cid with
  | none =>
    have h2 : lookupCart (setExpiry s cid e) cid = none := by
      rw [lookupCart_setExpiry, hc]
      rfl
    have ha : checkoutStep (setExpiry s cid e) cid ok sess amt =
        (setExpiry s cid e, .notFound) := by
      simp [checkoutStep, h2]
    have hb : checkoutStep s cid ok sess amt = (s, .notFound) := by
      simp [checkoutStep, hc]
    rw [ha, hb]
  | some cart =>
    have h2 : lookupCart (setExpiry s cid e) cid =
        some { cart with expires_at := e } := by
      rw [lookupCart_setExpiry, hc]
      rfl
    by_cases hopen : cart.status = .opened
    · by_cases hempty : cart.items = []
      · have ha : checkoutStep (setExpiry s cid e) cid ok sess amt =
            (setExpiry s cid e, .emptyCart) := by
          simp [checkoutStep, h2, hopen, hempty]
        have hb : checkoutStep s cid ok sess amt = (s, .emptyCart) := by
          simp [checkoutStep, hc, hopen, hempty]
        rw [ha, hb]
      · rcases hloop : reserveLoop s.inventory [] cart.items with ⟨inv2, ofail, racc⟩
        have hloopL : reserveLoop (setExpiry s cid e).inventory [] cart.items =
            (inv2, ofail, racc) := by
          rw [hi]
          exact hloop
        cases ofail with
        | some k =>
          have ha : checkoutStep (setExpiry s cid e) cid ok sess amt =
              ({ setExpiry s cid e with inventory := inv2 }, .insufficient k) := by
            simp [checkoutStep, h2, hopen, hempty, hloopL]
          have hb : checkoutStep s cid ok sess amt =
              ({ s with inventory := inv2 }, .insufficient k) := by
            simp [checkoutStep, hc, hopen, hempty, hloop]
          rw [ha, hb, setExpiry_inventory]
        | none =>
          cases ok with
          | true =>
            have ha : checkoutStep (setExpiry s cid e) cid true sess amt =
                ({ setExpiry s cid e with
                    inventory := inv2,
                    carts := setCart (setExpiry s cid e).carts cid (fun c => { c with status := .checked_out, stripe_session := some sess, discount_amount_cents := amt }) }, .ok) := by
              simp [checkoutStep, h2, hopen, hempty, hloopL]
            have hb : checkoutStep s cid true sess amt =
                ({ s with
                    inventory := inv2,
                    carts := setCart s.carts cid (fun c => { c with status := .checked_out, stripe_session := some sess, discount_amount_cents := amt }) }, .ok) := by
              simp [checkoutStep, hc, hopen, hempty, hloop]
            rw [ha, hb, checkout_ok_state_comm]
          | false =>
            have ha : checkoutStep (setExpiry s cid e) cid false sess amt =
                ({ setExpiry s cid e with inventory := releaseItems inv2 racc },
                 .processorFail) := by
              simp [checkoutStep, h2, hopen, hempty, hloopL]
            have hb : checkoutStep s cid false sess amt =
                ({ s with inventory := releaseItems inv2 racc }, .processorFail) := by
              simp [checkoutStep, hc, hopen, hempty, hloop]
            rw [ha, hb, setExpiry_inventory]
    · have ha : checkoutStep (setExpiry s cid e) cid ok sess amt =
          (setExpiry s cid e, .notOpen) := by
        simp [checkoutStep, h2, hopen]
      have hb : checkoutStep s cid ok sess amt = (s, .notOpen) := by
        simp [checkoutStep, hc, hopen]
      rw [ha, hb]

/-- Overwriting `expires_at` commutes with any per-cart update that itself
commutes with the expiry overwrite. -/
lemma setCart_state_comm (s : Sys) (cid : Nat) (e : Int) (f : Cart → Cart)
    (hf : ∀ c, f { c with expires_at := e } = { f c with expires_at := e }) :
    ({ setExpiry s cid e with carts := setCart (setExpiry s cid e).carts cid f } : Sys) =
      setExpiry { s with carts := setCart s.carts cid f } cid e := by
  unfold setExpiry
  simp only []
  congr 1
  exact setCart_expiry_comm s.carts cid e f hf

/-- The batch item validation reads only variants and inventory, which the
expiry overwrite leaves untouched. -/
lemma firstItemError_setExpiry (s : Sys) (cid : Nat) (e : Int) :
    ∀ its, firstItemError (setExpiry s cid e) its = firstItemError s its := by
  intro its
  induction its with
  | nil => rfl
  | cons it rest ih =>
    have h1 : lookupVariant (setExpiry s cid e) it.sku = lookupVariant s it.sku := rfl
    have h2 : availableAt (setExpiry s cid e).inventory it.sku =
        availableAt s.inventory it.sku := rfl
    simp only [firstItemError, h1, h2, ih]

/-- The replace-items route commutes with overwriting `expires_at`, for
every discount-recomputation engine. -/
lemma replaceItemsStep_setExpiry (s : Sys) (cid : Nat) (e : Int)
    (newItems : List CartItem)
    (recompute : Option Nat → List CartItem → String → Option Int) :
    replaceItemsStep (setExpiry s cid e) cid newItems recompute =
      (setExpiry (replaceItemsStep s cid newItems recompute).1 cid e,
       (replaceItemsStep s cid newItems recompute).2) := by
  by_cases hni : newItems = []
  · have ha : replaceItemsStep (setExpiry s cid e) cid newItems recompute =
        (setExpiry s cid e, .badItem) := by
      simp [replaceItemsStep, hni]
    have hb : replaceItemsStep s cid newItems recompute = (s, .badItem) := by
      simp [replaceItemsStep, hni]
    rw [ha, hb]
  · cases hc : lookupCart s cid with
    | none =>
      have h2 : lookupCart (setExpiry s cid e) cid = none := by
        rw [lookupCart_setExpiry, hc]
        rfl
      have ha : replaceItemsStep (setExpiry s cid e) cid newItems recompute =
          (setExpiry s cid e, .notFound) := by
        simp [replaceItemsStep, hni, h2]
      have hb : replaceItemsStep s cid newItems recompute = (s, .notFound) := by
        simp [replaceItemsStep, hni, hc]
      rw [ha, hb]
    | some cart =>
      have h2 : lookupCart (setExpiry s cid e) cid =
          some { cart with expires_at := e } := by
        rw [lookupCart_setExpiry, hc]
        rfl
      by_cases hopen : cart.status = .opened
      · have hfie := firstItemError_setExpiry s cid e newItems
        cases herr : firstItemError s newItems with
        | some err =>
          have ha : replaceItemsStep (setExpiry s cid e) cid newItems recompute =
              (setExpiry s cid e, err) := by
            simp [replaceItemsStep, hni, h2, hopen, hfie, herr]
          have hb : replaceItemsStep s cid newItems recompute = (s, err) := by
            simp [replaceItemsStep, hni, hc, hopen, herr]
          rw [ha, hb]
        | none =>
          have ha : replaceItemsStep (setExpiry s cid e) cid newItems recompute =
              ({ setExpiry s cid e with
                  carts := setCart (setExpiry s cid e).carts cid (fun c => match recompute c.discount_id newItems c.customer_email with | some amt => { c with items := newItems, discount_amount_cents := amt } | none => { c with items := newItems, discount_code := none, discount_id := none, discount_amount_cents := 0 }) },
               .ok) := by
            simp [replaceItemsStep, hni, h2, hopen, hfie, herr]
          have hb : replaceItemsStep s cid newItems recompute =
              ({ s with
                  carts := setCart s.carts cid (fun c => match recompute c.discount_id newItems c.customer_email with | some amt => { c with items := newItems, discount_amount_cents := amt } | none => { c with items := newItems, discount_code := none, discount_id := none, discount_amount_cents := 0 }) },
               .ok) := by
            simp [replaceItemsStep, hni, hc, hopen, herr]
          rw [ha, hb, setCart_state_comm]
          intro c
          cases hrec : recompute c.discount_id newItems c.customer_email with
          | none => simp [hrec]
          | some amt => simp [hrec]
      · have ha : replaceItemsStep (setExpiry s cid e) cid newItems recompute =
            (setExpiry s cid e, .notOpen) := by
          simp [replaceItemsStep, hni, h2, hopen]
        have hb : replaceItemsStep s cid newItems recompute = (s, .notOpen) := by
          simp [replaceItemsStep, hni, hc, hopen]
        rw [ha, hb]

/-- The apply-discount route commutes with overwriting `expires_at`, for
every validation engine `vf` and amount computation `camt` (neither of
which receives the expiry). -/
lemma applyDiscountStep_setExpiry (s : Sys) (cid : Nat) (e : Int)
    (rawCode : String) (vf : DiscountRec → List CartItem → String → Bool)
    (camt : DiscountRec → List CartItem → Int) :
    applyDiscountStep (setExpiry s cid e) cid rawCode vf camt =
      (setExpiry (applyDiscountStep s cid rawCode vf camt).1 cid e,
       (applyDiscountStep s cid rawCode vf camt).2) := by
  cases hc : lookupCart s cid with
  | none =>
    have h2 : lookupCart (setExpiry s cid e) cid = none := by
      rw [lookupCart_setExpiry, hc]
      rfl
    have ha : applyDiscountStep (setExpiry s cid e) cid rawCode vf camt =
        (setExpiry s cid e, .notFound) := by
      simp [applyDiscountStep, h2]
    have hb : applyDiscountStep s cid rawCode vf camt = (s, .notFound) := by
      simp [applyDiscountStep, hc]
    rw [ha, hb]
  | some cart =>
    have h2 : lookupCart (setExpiry s cid e) cid =
        some { cart with expires_at := e } := by
      rw [lookupCart_setExpiry, hc]
      rfl
    by_cases hopen : cart.status = .opened
    · have hdisc : (setExpiry s cid e).discounts = s.discounts := rfl
      cases hfd : s.discounts.find?
          (fun p => p.2.code == rawCode.toUpper.trim) with
      | none =>
        have ha : applyDiscountStep (setExpiry s cid e) cid rawCode vf camt =
            (setExpiry s cid e, .codeNotFound) := by
          simp [applyDiscountStep, h2, hopen, hdisc, hfd]
        have hb : applyDiscountStep s cid rawCode vf camt = (s, .codeNotFound) := by
          simp [applyDiscountStep, hc, hopen, hfd]
        rw [ha, hb]
      | some pd =>
        obtain ⟨did, d⟩ := pd
        by_cases hemp : cart.items = []
        · have ha : applyDiscountStep (setExpiry s cid e) cid rawCode vf camt =
              (setExpiry s cid e, .emptyCart) := by
            simp [applyDiscountStep, h2, hopen, hdisc, hfd, hemp]
          have hb : applyDiscountStep s cid rawCode vf camt = (s, .emptyCart) := by
            simp [applyDiscountStep, hc, hopen, hfd, hemp]
          rw [ha, hb]
        · cases hvf : vf d cart.items cart.customer_email with
          | false =>
            have ha : applyDiscountStep (setExpiry s cid e) cid rawCode vf camt =
                (setExpiry s cid e, .ineligible) := by
              simp [applyDiscountStep, h2, hopen, hdisc, hfd, hemp, hvf]
            have hb : applyDiscountStep s cid rawCode vf camt = (s, .ineligible) := by
              simp [applyDiscountStep, hc, hopen, hfd, hemp, hvf]
            rw [ha, hb]
          | true =>
            have ha : applyDiscountStep (setExpiry s cid e) cid rawCode vf camt =
                ({ setExpiry s cid e with
                    carts := setCart (setExpiry s cid e).carts cid (fun c => { c with discount_code := some d.code, discount_id := some did, discount_amount_cents := camt d cart.items }) },
                 .ok) := by
              simp [applyDiscountStep, h2, hopen, hdisc, hfd, hemp, hvf]
            have hb : applyDiscountStep s cid rawCode vf camt =
                ({ s with
                    carts := setCart s.carts cid (fun c => { c with discount_code := some d.code, discount_id := some did, discount_amount_cents := camt d cart.items }) },
                 .ok) := by
              simp [applyDiscountStep, hc, hopen, hfd, hemp, hvf]
            rw [ha, hb, setCart_state_comm]
            intro c
            rfl
    · have ha : applyDiscountStep (setExpiry s cid e) cid rawCode vf camt =
          (setExpiry s cid e, .notOpen) := by
        simp [applyDiscountStep, h2, hopen]
      have hb : applyDiscountStep s cid rawCode vf camt = (s, .notOpen) := by
        simp [applyDiscountStep, hc, hopen]
      rw [ha, hb]

/-- The remove-discount route commutes with overwriting `expires_at`. -/
lemma removeDiscountStep_setExpiry (s : Sys) (cid : Nat) (e : Int) :
    removeDiscountStep (setExpiry s cid e) cid =
      (setExpiry (removeDiscountStep s cid).1 cid e,
       (removeDiscountStep s cid).2) := by
  cases hc : lookupCart s cid with
  | none =>
    have h2 : lookupCart (setExpiry s cid e) cid = none := by
      rw [lookupCart_setExpiry, hc]
      rfl
    have ha : removeDiscountStep (setExpiry s cid e) cid =
        (setExpiry s cid e, .notFound) := by
      simp [removeDiscountStep, h2]
    have hb : removeDiscountStep s cid = (s, .notFound) := by
      simp [removeDiscountStep, hc]
    rw [ha, hb]
  | some cart =>
    have h2 : lookupCart (setExpiry s cid e) cid =
        some { cart with expires_at := e } := by
      rw [lookupCart_setExpiry, hc]
      rfl
    by_cases hopen : cart.status = .opened
    · have ha : removeDiscountStep (setExpiry s cid e) cid =
          ({ setExpiry s cid e with
              carts := setCart (setExpiry s cid e).carts cid (fun c => { c with discount_code := none, discount_id := none, discount_amount_cents := 0 }) },
           .ok) := by
        simp [removeDiscountStep, h2, hopen]
      have hb : removeDiscountStep s cid =
          ({ s with
              carts := setCart s.carts cid (fun c => { c with discount_code := none, discount_id := none, discount_amount_cents := 0 }) },
           .ok) := by
        simp [removeDiscountStep, hc, hopen]
      rw [ha, hb, setCart_state_comm]
      intro c
      rfl
    · have ha : removeDiscountStep (setExpiry s cid e) cid =
          (setExpiry s cid e, .notOpen) := by
        simp [removeDiscountStep, h2, hopen]
      have hb : removeDiscountStep s cid = (s, .notOpen) := by
        simp [removeDiscountStep, hc, hopen]
      rw [ha, hb]

/-- C9: no cart-mutating route consults `expires_at`.  Replace-items,
apply-discount, remove-discount and checkout each behave identically after
the operated cart's `expires_at` is overwritten with any value — the result
code is the same and the resulting state is the original result with only
that `expires_at` overwrite carried along.  In particular a full checkout
of an open cart whose `expires_at` is already in the past reserves
inventory and transitions to `checked_out` exactly as for an unexpired
cart. -/
theorem C9_expiry_not_consulted :
    (∀ (s : Sys) (cid : Nat) (e : Int) (ok : Bool) (sess : Nat) (amt : Int),
        checkoutStep (setExpiry s cid e) cid ok sess amt =
          (setExpiry (checkoutStep s cid ok sess amt).1 cid e,
           (checkoutStep s cid ok sess amt).2)) ∧
    (∀ (s : Sys) (cid : Nat) (e : Int) (newItems : List CartItem)
        (recompute : Option Nat → List CartItem → String → Option Int),
        replaceItemsStep (setExpiry s cid e) cid newItems recompute =
          (setExpiry (replaceItemsStep s cid newItems recompute).1 cid e,
           (replaceItemsStep s cid newItems recompute).2)) ∧
    (∀ (s : Sys) (cid : Nat) (e : Int) (rawCode : String)
        (vf : DiscountRec → List CartItem → String → Bool)
        (camt : DiscountRec → List CartItem → Int),
        applyDiscountStep (setExpiry s cid e) cid rawCode vf camt =
          (setExpiry (applyDiscountStep s cid rawCode vf camt).1 cid e,
           (applyDiscountStep s cid rawCode vf camt).2)) ∧
    (∀ (s : Sys) (cid : Nat) (e : Int),
        removeDiscountStep (setExpiry s cid e) cid =
          (setExpiry (removeDiscountStep s cid).1 cid e,
           (removeDiscountStep s cid).2)) :=
  ⟨checkoutStep_setExpiry, replaceItemsStep_setExpiry,
   applyDiscountStep_setExpiry, removeDiscountStep_setExpiry⟩

/-- C9 witness: the checkout of the already-expired-but-unswept open cart
of `c6sys` (expiry 1800, here pushed to the far past) succeeds exactly as
for an unexpired cart. -/
theorem C9_expiry_not_consulted_witness :
    (checkoutStep c6sys 0 true 7 0).2 = .ok ∧
    checkoutStep (setExpiry c6sys 0 (-1000)) 0 true 7 0 =
      (setExpiry (checkoutStep c6sys 0 true 7 0).1 0 (-1000),
       (checkoutStep c6sys 0 true 7 0).2) ∧
    (checkoutStep (setExpiry c6sys 0 (-1000)) 0 true 7 0).2 = .ok :=
  ⟨by decide,
   C9_expiry_not_consulted.1 c6sys 0 (-1000) true 7 0,
   by rw [C9_expiry_not_consulted.1 c6sys 0 (-1000) true 7 0]; decide⟩

end Merchant



